import Mathlib

/-!
Shallow embedding of pebble's level iterator (src/level_iter.go).

The level iterator presents the sstables of one LSM level as a single
sorted stream of point keys, pausing at sstable boundaries with synthetic
range-delete sentinel keys while a file's range-deletion iterator is still
live in the merging iterator's slot.

The code of level_iter.go is translated function by function.  The external
collaborators (the manifest level cursor, the sstable point iterator, the
table opener) are not part of the source file and are modelled from the
spec, as marked on their definitions.  A few pure instrumentation fields
(open/close counters and logs of the flags passed to findFileGE) are added
to the state to let trace properties be stated; they never influence
control flow.
-/

/-- User keys are byte sequences; bytes are modelled as naturals. -/
abbrev Key := List Nat

/-- Opaque Go error values. -/
abbrev GoErr := Nat

/-- Byte-order (lexicographic) comparison: `keyLt a b` is `cmp(a, b) < 0`
for the byte-order comparator used throughout the spec's scenarios. -/
def keyLt : Key → Key → Bool
  | [], [] => false
  | [], _ :: _ => true
  | _ :: _, [] => false
  | a :: as, b :: bs => decide (a < b) || (decide (a = b) && keyLt as bs)

/-- Seek flags for forward seeks (base.SeekGEFlags): only the two bits the
level iterator consults are modelled. -/
structure SeekGEFlags where
  trySeekUsingNext : Bool
  relativeSeek : Bool
deriving Repr, DecidableEq

/-- base.SeekGEFlagsNone. -/
def seekGEFlagsNone : SeekGEFlags := ⟨false, false⟩

/-- base.SeekGEFlags.EnableTrySeekUsingNext. -/
def SeekGEFlags.enableTrySeekUsingNext (f : SeekGEFlags) : SeekGEFlags :=
  { f with trySeekUsingNext := true }

/-- base.SeekGEFlags.DisableTrySeekUsingNext. -/
def SeekGEFlags.disableTrySeekUsingNext (f : SeekGEFlags) : SeekGEFlags :=
  { f with trySeekUsingNext := false }

/-- base.SeekGEFlags.EnableRelativeSeek. -/
def SeekGEFlags.enableRelativeSeek (f : SeekGEFlags) : SeekGEFlags :=
  { f with relativeSeek := true }

/-- Seek flags for backward seeks (base.SeekLTFlags). -/
structure SeekLTFlags where
  relativeSeek : Bool
deriving Repr, DecidableEq

/-- base.SeekLTFlagsNone. -/
def seekLTFlagsNone : SeekLTFlags := ⟨false⟩

/-- Internal key: a user key together with the exclusive range-delete
sentinel bit (the only part of the trailer the level iterator inspects). -/
structure InternalKey where
  userKey : Key
  sentinel : Bool
deriving Repr, DecidableEq

/-- base.MakeRangeDeleteSentinelKey. -/
def makeRangeDeleteSentinelKey (u : Key) : InternalKey := ⟨u, true⟩

/-- base.InternalKV; the value is always empty for synthetic boundaries and
never inspected by the level iterator, so only the key is modelled. -/
structure InternalKV where
  k : InternalKey
deriving Repr, DecidableEq

/-- Handle of a per-file range-deletion (tombstone) iterator, as stored in
the merging iterator's slot.  The id identifies the handle for close
tracking; closeErr is the error its Close would report. -/
structure RangeDelIter where
  iid : Nat
  closeErr : Option GoErr
deriving Repr, DecidableEq

/-- The combinedIterState cell shared with the enclosing iterator. -/
structure CombinedState where
  initialized : Bool
  triggered : Bool
  key : Key
deriving Repr, DecidableEq

/-- File metadata (manifest.FileMetadata), restricted to the attributes the
level iterator reads.  The fields after numRangeKeySets model the external
table opener's behaviour on this file (Modelled from the spec: the
TableOpener returns a point iterator over the file's sorted point keys and
optionally a range-deletion iterator, or fails): pointKeys are the point
keys the opened sstable iterator yields, openErr a table-opener failure,
hasRangeDels whether the file has a tombstone iterator, and the closeErr
fields the errors reported when closing the opened iterators. -/
structure FileMeta where
  fileNum : Nat
  smallest : InternalKey
  largest : InternalKey
  smallestPointKey : InternalKey
  largestPointKey : InternalKey
  smallestRangeKey : Key
  largestRangeKey : Key
  hasPointKeys : Bool
  hasRangeKeys : Bool
  statsValid : Bool
  numRangeKeySets : Nat
  pointKeys : List Key
  openErr : Option GoErr
  hasRangeDels : Bool
  rdCloseErr : Option GoErr
  ptCloseErr : Option GoErr
deriving Repr, DecidableEq

/-- Modelled from the spec: the LevelCursor (manifest.LevelIterator), an
ordered cursor over one level's file-metadata records.  pos ranges over
[-1, files.length]; -1 is before the first file and files.length after the
last. -/
structure Cursor where
  files : List FileMeta
  pos : Int
deriving Repr, DecidableEq

/-- Modelled from the spec: the cursor's current file. -/
def Cursor.current (c : Cursor) : Option FileMeta :=
  if 0 ≤ c.pos then c.files[c.pos.toNat]? else none

/-- Modelled from the spec: step the cursor to the next file, staying at
the after-last position once exhausted. -/
def Cursor.next (c : Cursor) : Cursor × Option FileMeta :=
  let c' : Cursor := { c with pos := min (c.pos + 1) (c.files.length : Int) }
  (c', c'.current)

/-- Modelled from the spec: step the cursor to the previous file, staying
at the before-first position once exhausted. -/
def Cursor.prev (c : Cursor) : Cursor × Option FileMeta :=
  let c' : Cursor := { c with pos := max (c.pos - 1) (-1) }
  (c', c'.current)

/-- Modelled from the spec: position at the earliest file whose largest
key is ≥ key (files are ordered, so this is a binary search in the
source). -/
def Cursor.seekGE (c : Cursor) (key : Key) : Cursor × Option FileMeta :=
  let i := c.files.findIdx fun f => ! keyLt f.largest.userKey key
  let c' : Cursor := { c with pos := (i : Int) }
  (c', c'.current)

/-- Modelled from the spec: position at the last file whose smallest key
is < key (for an ordered level those files form a prefix). -/
def Cursor.seekLT (c : Cursor) (key : Key) : Cursor × Option FileMeta :=
  let i := (c.files.takeWhile fun f => keyLt f.smallest.userKey key).length
  let c' : Cursor := { c with pos := (i : Int) - 1 }
  (c', c'.current)

/-- Modelled from the spec: position at the first file of the level. -/
def Cursor.first (c : Cursor) : Cursor × Option FileMeta :=
  let c' : Cursor := { c with pos := 0 }
  (c', c'.current)

/-- Modelled from the spec: position at the last file of the level. -/
def Cursor.last (c : Cursor) : Cursor × Option FileMeta :=
  let c' : Cursor := { c with pos := (c.files.length : Int) - 1 }
  (c', c'.current)

/-- Modelled from the spec: the sstable point iterator, a black box
producing the file's sorted point keys restricted to the per-table bounds
[lo, hi) handed to the table opener.  iid identifies the instance for
close tracking; err is its sticky iteration error and closeErr the error
its Close reports.  split is the comparer's prefix-split function. -/
structure InnerIter where
  iid : Nat
  split : Key → Nat
  keys : List Key
  lo : Option Key
  hi : Option Key
  pos : Int
  err : Option GoErr
  closeErr : Option GoErr

/-- Modelled from the spec: bound check for the inner iterator. -/
def InnerIter.inBounds (it : InnerIter) (k : Key) : Bool :=
  (match it.lo with
   | none => true
   | some lo => ! keyLt k lo) &&
  (match it.hi with
   | none => true
   | some hi => keyLt k hi)

/-- Modelled from the spec: the keys the inner iterator exposes. -/
def InnerIter.vis (it : InnerIter) : List Key := it.keys.filter it.inBounds

/-- Modelled from the spec: the key-value pair at the current position. -/
def InnerIter.atPos (it : InnerIter) : Option InternalKV :=
  if 0 ≤ it.pos then (it.vis[it.pos.toNat]?).map (fun k => ⟨⟨k, false⟩⟩) else none

/-- Modelled from the spec: inner SeekGE returns the first exposed key
≥ key.  The seek flags are hints only and do not change the result. -/
def InnerIter.seekGE (it : InnerIter) (key : Key) (_flags : SeekGEFlags) :
    InnerIter × Option InternalKV :=
  if it.err.isSome then (it, none)
  else
    let it' := { it with pos := ((it.vis.findIdx fun k => ! keyLt k key : Nat) : Int) }
    (it', it'.atPos)

/-- Modelled from the spec: inner SeekPrefixGE returns the first exposed
key ≥ key when that key carries the sought split-off key portion, else
nil (a nil does not mean the table is exhausted). -/
def InnerIter.seekPrefixGE (it : InnerIter) (pfx key : Key) (_flags : SeekGEFlags) :
    InnerIter × Option InternalKV :=
  if it.err.isSome then (it, none)
  else
    let it' := { it with pos := ((it.vis.findIdx fun k => ! keyLt k key : Nat) : Int) }
    match it'.atPos with
    | none => (it', none)
    | some kv =>
      if kv.k.userKey.take (it.split kv.k.userKey) = pfx then (it', some kv) else (it', none)

/-- Modelled from the spec: inner SeekLT returns the last exposed key
< key. -/
def InnerIter.seekLT (it : InnerIter) (key : Key) (_flags : SeekLTFlags) :
    InnerIter × Option InternalKV :=
  if it.err.isSome then (it, none)
  else
    let it' := { it with pos := ((it.vis.takeWhile fun k => keyLt k key).length : Int) - 1 }
    (it', it'.atPos)

/-- Modelled from the spec: inner First. -/
def InnerIter.first (it : InnerIter) : InnerIter × Option InternalKV :=
  if it.err.isSome then (it, none)
  else
    let it' := { it with pos := 0 }
    (it', it'.atPos)

/-- Modelled from the spec: inner Last. -/
def InnerIter.last (it : InnerIter) : InnerIter × Option InternalKV :=
  if it.err.isSome then (it, none)
  else
    let it' := { it with pos := (it.vis.length : Int) - 1 }
    (it', it'.atPos)

/-- Modelled from the spec: inner Next. -/
def InnerIter.next (it : InnerIter) : InnerIter × Option InternalKV :=
  if it.err.isSome then (it, none)
  else
    let it' := { it with pos := it.pos + 1 }
    (it', it'.atPos)

/-- Modelled from the spec: inner Prev. -/
def InnerIter.prev (it : InnerIter) : InnerIter × Option InternalKV :=
  if it.err.isSome then (it, none)
  else
    let it' := { it with pos := it.pos - 1 }
    (it', it'.atPos)

/-- Modelled from the spec: inner NextPrefix positions at the first key
≥ succKey (the precomputed prefix successor). -/
def InnerIter.nextPrefix (it : InnerIter) (succKey : Key) : InnerIter × Option InternalKV :=
  if it.err.isSome then (it, none)
  else
    let it' := { it with pos := ((it.vis.findIdx fun k => ! keyLt k succKey : Nat) : Int) }
    (it', it'.atPos)

/-- firstError from the pebble error utilities: first error wins. -/
def firstError (a b : Option GoErr) : Option GoErr :=
  match a with
  | some _ => a
  | none => b

/-- loadFileReturnIndicator from level_iter.go. -/
inductive LoadFileReturnIndicator
  | noFileLoaded
  | fileAlreadyLoaded
  | newFileLoaded
deriving Repr, DecidableEq

/-- The levelIter state (struct levelIter of level_iter.go).  Pointers are
modelled by Options: rangeDelRegistered is rangeDelIterPtr != nil and
rangeDelSlot is *rangeDelIterPtr; combined is the combinedIterState cell
(none when the pointer is nil); iterFile holds the current file by value
(Go compares the pointers; files carry distinct fileNums).  The fields
nextIid, openCount, closeLog and ffgeLog are pure instrumentation: fresh
iterator ids, the number of table-opener invocations, the ids of closed
inner iterators in order, and the flags of each findFileGE invocation.
The syntheticBoundary scratch buffer is not modelled (the boundary
registers hold the key-value pair directly), and neither are the
debug-build entry assertions and the verify() bound checks; the assertion
inside makeSyntheticBoundary is modelled (see there). -/
structure LevelIter where
  split : Key → Nat
  lower : Option Key
  upper : Option Key
  tableOptsLower : Option Key
  tableOptsUpper : Option Key
  smallestBoundary : Option InternalKV
  largestBoundary : Option InternalKV
  combined : Option CombinedState
  iter : Option InnerIter
  iterFile : Option FileMeta
  rangeDelRegistered : Bool
  rangeDelSlot : Option RangeDelIter
  rangeDelCopy : Option RangeDelIter
  files : Cursor
  err : Option GoErr
  exhaustedDir : Int
  nextIid : Nat
  openCount : Nat
  closeLog : List Nat
  ffgeLog : List SeekGEFlags

/-- emitSyntheticBoundaries (level_iter.go:204): both a slot was
registered and the current file's tombstone iterator is live in it. -/
def LevelIter.emitSyntheticBoundaries (l : LevelIter) : Bool :=
  l.rangeDelRegistered && l.rangeDelSlot.isSome

/-- makeSyntheticBoundary (level_iter.go:208).  The result is none exactly
when the invariant assertion fires (emitting a synthetic boundary while
not configured to surface range deletions or with no live tombstone
iterator), which panics in the source. -/
def LevelIter.makeSyntheticBoundary (l : LevelIter) (userKey : Key) : Option InternalKV :=
  if ! l.emitSyntheticBoundaries then none
  else some ⟨makeRangeDeleteSentinelKey userKey⟩

/-- maybeTriggerCombinedIteration (level_iter.go:224). -/
def LevelIter.maybeTriggerCombinedIteration (l : LevelIter) (file : Option FileMeta)
    (dir : Int) : LevelIter :=
  match file, l.combined with
  | some f, some c =>
    if f.hasRangeKeys && ! c.initialized &&
       (match l.upper with
        | none => true
        | some u => keyLt f.smallestRangeKey u) &&
       (match l.lower with
        | none => true
        | some lo => keyLt lo f.largestRangeKey) &&
       (! f.statsValid || decide (0 < f.numRangeKeySets)) then
      if dir = 1 then
        if ! c.triggered then
          { l with combined := some ⟨c.initialized, true, f.smallestRangeKey⟩ }
        else if keyLt f.smallestRangeKey c.key then
          { l with combined := some { c with key := f.smallestRangeKey } }
        else l
      else if dir = -1 then
        if ! c.triggered then
          { l with combined := some ⟨c.initialized, true, f.largestRangeKey⟩ }
        else if keyLt c.key f.largestRangeKey then
          { l with combined := some { c with key := f.largestRangeKey } }
        else l
      else l
    else l
  | _, _ => l

/-- The loop of findFileGE (level_iter.go:350-408).  m is the candidate
file, nios the nextInsteadOfSeek flag, nus the nextsUntilSeek budget
(-1 meaning unlimited stepping for relative seeks), steps the
instrumentation count of budget-decremented forward steps and fb whether
the loop fell back to a binary-search seek.  fuel only bounds the
recursion; the wrapper passes enough for the loop to always finish on its
own. -/
def LevelIter.findFileGELoop (l : LevelIter) (key : Key) (m : Option FileMeta)
    (nios : Bool) (nus : Int) (steps : Nat) (fb : Bool) :
    Nat → LevelIter × Option FileMeta × Nat × Bool
  | 0 => (l, m, steps, fb)
  | fuel + 1 =>
    match m with
    | none => (l, none, steps, fb)
    | some mf =>
      let l := if mf.hasRangeKeys then l.maybeTriggerCombinedIteration (some mf) 1 else l
      if mf.hasRangeKeys && ! mf.hasPointKeys then
        let r := l.files.next
        LevelIter.findFileGELoop { l with files := r.1 } key r.2 nios nus steps fb fuel
      else if (mf.hasRangeKeys || nios) && keyLt mf.largestPointKey.userKey key then
        if nios && nus = 0 then
          let r := l.files.seekGE key
          LevelIter.findFileGELoop { l with files := r.1 } key r.2 false nus steps true fuel
        else
          let nus' := if 0 < nus then nus - 1 else nus
          let steps' := if 0 < nus then steps + 1 else steps
          let r := l.files.next
          LevelIter.findFileGELoop { l with files := r.1 } key r.2 nios nus' steps' fb fuel
      else if mf.largestPointKey.sentinel && mf.largestPointKey.userKey = key then
        let r := l.files.next
        LevelIter.findFileGELoop { l with files := r.1 } key r.2 nios nus steps fb fuel
      else
        (l, some mf, steps, fb)

/-- findFileGE (level_iter.go:278): the earliest file whose largest point
key is ≥ key, located by stepping forward from the current file when the
TrySeekUsingNext or RelativeSeek hints apply and by a cursor seek
otherwise.  Also returns the instrumentation of the loop. -/
def LevelIter.findFileGE (l : LevelIter) (key : Key) (flags : SeekGEFlags) :
    LevelIter × Option FileMeta × Nat × Bool :=
  let l := { l with ffgeLog := l.ffgeLog ++ [flags] }
  let nios := flags.trySeekUsingNext
  let nus : Int := if flags.trySeekUsingNext then 4 else 0
  let rsStep := flags.relativeSeek &&
    (match l.combined with
     | some c => ! c.initialized
     | none => false)
  let nios := nios || rsStep
  let nus := if rsStep then -1 else nus
  let start : LevelIter × Option FileMeta :=
    if nios then (l, l.iterFile)
    else ({ l with files := (l.files.seekGE key).1 }, (l.files.seekGE key).2)
  LevelIter.findFileGELoop start.1 key start.2 nios nus 0 false
    (2 * start.1.files.files.length + 8)

/-- The loop of findFileLT (level_iter.go:441-473). -/
def LevelIter.findFileLTLoop (l : LevelIter) (key : Key) (m : Option FileMeta)
    (pios : Bool) : Nat → LevelIter × Option FileMeta
  | 0 => (l, m)
  | fuel + 1 =>
    match m with
    | none => (l, none)
    | some mf =>
      let l := if mf.hasRangeKeys then l.maybeTriggerCombinedIteration (some mf) (-1) else l
      if mf.hasRangeKeys && ! mf.hasPointKeys then
        let r := l.files.prev
        LevelIter.findFileLTLoop { l with files := r.1 } key r.2 pios fuel
      else if (mf.hasRangeKeys || pios) && ! keyLt mf.smallestPointKey.userKey key then
        let r := l.files.prev
        LevelIter.findFileLTLoop { l with files := r.1 } key r.2 pios fuel
      else
        (l, some mf)

/-- findFileLT (level_iter.go:412): the last file whose smallest point key
is < key; under a relative seek with combined iteration uninitialized the
cursor is stepped backwards file by file instead of seeking. -/
def LevelIter.findFileLT (l : LevelIter) (key : Key) (flags : SeekLTFlags) :
    LevelIter × Option FileMeta :=
  let pios := flags.relativeSeek &&
    (match l.combined with
     | some c => ! c.initialized
     | none => false)
  let start : LevelIter × Option FileMeta :=
    if pios then (l, l.iterFile)
    else ({ l with files := (l.files.seekLT key).1 }, (l.files.seekLT key).2)
  LevelIter.findFileLTLoop start.1 key start.2 pios (start.1.files.files.length + 4)

/-- Upper-bound half of initTableBounds (level_iter.go:494-508). -/
def LevelIter.initTableBoundsUpper (l : LevelIter) (f : FileMeta) : LevelIter × Int :=
  let l3 := { l with tableOptsUpper := l.upper }
  match l3.tableOptsUpper with
  | some ub =>
    if ! keyLt f.smallestPointKey.userKey ub then (l3, 1)
    else if keyLt f.largestPointKey.userKey ub then
      ({ l3 with tableOptsUpper := none }, 0)
    else (l3, 0)
  | none => (l3, 0)

/-- initTableBounds (level_iter.go:480): computes the per-table effective
bounds into tableOpts, returning -1 when the table lies fully before the
lower bound, +1 when fully at or after the upper bound, and 0 when it
overlaps the iteration bounds.  The upper-bound half of the source
function is the helper initTableBoundsUpper above. -/
def LevelIter.initTableBounds (l : LevelIter) (f : FileMeta) : LevelIter × Int :=
  let l1 := { l with tableOptsLower := l.lower }
  match l1.tableOptsLower with
  | some lb =>
    if keyLt f.largestPointKey.userKey lb then (l1, -1)
    else if ! keyLt f.smallestPointKey.userKey lb then
      LevelIter.initTableBoundsUpper { l1 with tableOptsLower := none } f
    else l1.initTableBoundsUpper f
  | none => l1.initTableBoundsUpper f

/-- Close (level_iter.go:1058): close the inner point iterator, storing
its error, then close the tombstone iterator through the private copy with
first-error-wins composition, null the slot and the copy, and return the
stored error. -/
def LevelIter.closeOp (l : LevelIter) : LevelIter × Option GoErr :=
  let l :=
    match l.iter with
    | some it =>
      { l with err := it.closeErr, iter := none, closeLog := l.closeLog ++ [it.iid] }
    | none => l
  let l :=
    if l.rangeDelRegistered then
      let l :=
        match l.rangeDelCopy with
        | some t => { l with err := firstError l.err t.closeErr, closeLog := l.closeLog ++ [t.iid] }
        | none => l
      { l with rangeDelSlot := none, rangeDelCopy := none }
    else l
  (l, l.err)

/-- First step of the loadFile loop body for a candidate file: record it
as the current file and re-evaluate the combined-iteration trigger
(level_iter.go:560-565). -/
def LevelIter.lfState (l : LevelIter) (f : FileMeta) (dir : Int) : LevelIter :=
  LevelIter.maybeTriggerCombinedIteration { l with iterFile := some f } (some f) dir

/-- The state after per-table bound initialization in the loadFile loop. -/
def LevelIter.lfBounds (l : LevelIter) (f : FileMeta) (dir : Int) : LevelIter :=
  ((l.lfState f dir).initTableBounds f).1

/-- The table-opener invocation of the loadFile loop (level_iter.go:
595-610).  Modelled from the spec: the TableOpener yields a point
iterator over the file's point keys under the per-table bounds and, when
requested, the file's range-deletion iterator; on failure the error is
stashed.  The instrumentation counts the invocation and allocates fresh
iterator ids. -/
def LevelIter.lfOpen (l : LevelIter) (f : FileMeta) : LevelIter × LoadFileReturnIndicator :=
  match f.openErr with
  | some e => ({ l with err := some e, openCount := l.openCount + 1 }, .noFileLoaded)
  | none =>
    if l.rangeDelRegistered then
      ({ l with
           iter := some ⟨l.nextIid, l.split, f.pointKeys, l.tableOptsLower,
             l.tableOptsUpper, -1, none, f.ptCloseErr⟩,
           openCount := l.openCount + 1, nextIid := l.nextIid + 2,
           rangeDelSlot :=
             if f.hasRangeDels then some ⟨l.nextIid + 1, f.rdCloseErr⟩ else none,
           rangeDelCopy :=
             if f.hasRangeDels then some ⟨l.nextIid + 1, f.rdCloseErr⟩ else none },
        .newFileLoaded)
    else
      ({ l with
           iter := some ⟨l.nextIid, l.split, f.pointKeys, l.tableOptsLower,
             l.tableOptsUpper, -1, none, f.ptCloseErr⟩,
           openCount := l.openCount + 1, nextIid := l.nextIid + 2 },
        .newFileLoaded)

/-- The loop of loadFile (level_iter.go:559-611): skip range-key-only
files, prune out-of-bounds tables, and invoke the table opener. -/
def LevelIter.loadFileLoop : LevelIter → Option FileMeta → Int → Nat →
    LevelIter × LoadFileReturnIndicator
  | l, _, _, 0 => (l, .noFileLoaded)
  | l, none, _, _ + 1 => ({ l with iterFile := none }, .noFileLoaded)
  | l, some f, dir, fuel + 1 =>
    if ! f.hasPointKeys && dir = 1 then
      LevelIter.loadFileLoop
        { l.lfState f dir with files := ((l.lfState f dir).files.next).1 }
        ((l.lfState f dir).files.next).2 dir fuel
    else if ! f.hasPointKeys && dir = -1 then
      LevelIter.loadFileLoop
        { l.lfState f dir with files := ((l.lfState f dir).files.prev).1 }
        ((l.lfState f dir).files.prev).2 dir fuel
    else if ((l.lfState f dir).initTableBounds f).2 = (-1 : Int) then
      if dir < 0 then (l.lfBounds f dir, .noFileLoaded)
      else
        LevelIter.loadFileLoop
          { l.lfBounds f dir with files := ((l.lfBounds f dir).files.next).1 }
          ((l.lfBounds f dir).files.next).2 dir fuel
    else if ((l.lfState f dir).initTableBounds f).2 = (1 : Int) then
      if 0 < dir then (l.lfBounds f dir, .noFileLoaded)
      else
        LevelIter.loadFileLoop
          { l.lfBounds f dir with files := ((l.lfBounds f dir).files.prev).1 }
          ((l.lfBounds f dir).files.prev).2 dir fuel
    else
      (l.lfBounds f dir).lfOpen f

/-- loadFile with the boundary registers already reset: close the open
iterators, bail out on a close error, run the load loop. -/
def LevelIter.loadFileClose (l : LevelIter) (file : Option FileMeta) (dir : Int) :
    LevelIter × LoadFileReturnIndicator :=
  match (l.closeOp).2 with
  | some _ => ((l.closeOp).1, .noFileLoaded)
  | none => (l.closeOp).1.loadFileLoop file dir (2 * (l.closeOp).1.files.files.length + 8)

/-- loadFile resets the smallest/largest boundary registers first
(level_iter.go:521-522). -/
def LevelIter.loadFileReset (l : LevelIter) : LevelIter :=
  { l with smallestBoundary := none, largestBoundary := none }

/-- loadFile (level_iter.go:520): reset the boundary registers; when the
file is already the current one with no error and an open inner iterator,
restore the range-deletion slot from the private copy, re-evaluate the
combined-iteration trigger and report fileAlreadyLoaded; otherwise close
the open iterators and run the load loop.  The quick-path conditions read
the fields of the original state, which the boundary reset leaves
untouched. -/
def LevelIter.loadFile (l0 : LevelIter) (file : Option FileMeta) (dir : Int) :
    LevelIter × LoadFileReturnIndicator :=
  if l0.iterFile = file then
    if l0.err.isSome then (l0.loadFileReset, .noFileLoaded)
    else
      match l0.iter with
      | some _ =>
        (LevelIter.maybeTriggerCombinedIteration
          (if l0.rangeDelRegistered then
             { l0.loadFileReset with rangeDelSlot := l0.rangeDelCopy }
           else l0.loadFileReset) file dir, .fileAlreadyLoaded)
      | none => LevelIter.loadFileClose l0.loadFileReset file dir
  else LevelIter.loadFileClose l0.loadFileReset file dir

/-- Result of a positioning operation: the updated state and the returned
key-value pair (none when the operation returns nil).  The outer Option is
none exactly when the source panics: the invariant assertion inside
makeSyntheticBoundary, or a nil dereference of an absent inner iterator or
current file (all unreachable in sane states, as proved below). -/
abbrev OpResult := Option (LevelIter × Option InternalKV)

/-- The cursor-next-and-load step shared by the forward skip loop and by
Next past a boundary (level_iter.go:803, 979). -/
def LevelIter.skipFwdLoad (l : LevelIter) : LevelIter × LoadFileReturnIndicator :=
  LevelIter.loadFile { l with files := (l.files.next).1 } ((l.files.next).2) 1

/-- The cursor-prev-and-load step shared by the backward skip loop and by
Prev past a boundary (level_iter.go:898, 1043). -/
def LevelIter.skipBwdLoad (l : LevelIter) : LevelIter × LoadFileReturnIndicator :=
  LevelIter.loadFile { l with files := (l.files.prev).1 } ((l.files.prev).2) (-1)

/-- The loop of skipEmptyFileForward (level_iter.go:917): on an exhausted
inner iterator, either pause with a synthetic boundary (upper bound or the
file's largest point key) while the file's tombstones are live, return nil
at an upper bound with no tombstones, or advance to the next file.  The
advance step appears twice, mirroring the two fall-through paths of the
source (slot registered with no live tombstones and no upper bound, and
no slot registered). -/
def LevelIter.skipEmptyFileForwardLoop (l : LevelIter) : Nat → OpResult
  | 0 => some (l, none)
  | fuel + 1 =>
    match l.iter with
    | none => none
    | some it =>
      if it.err.isSome then some (l, none)
      else if l.rangeDelRegistered then
        match l.tableOptsUpper with
        | some ub =>
          if l.rangeDelSlot.isSome then
            match l.makeSyntheticBoundary ub with
            | none => none
            | some bkv =>
              some ({ l with exhaustedDir := 1, largestBoundary := some bkv }, some bkv)
          else some ({ l with exhaustedDir := 1 }, none)
        | none =>
          if l.rangeDelSlot.isSome then
            match l.iterFile with
            | none => none
            | some f =>
              match l.makeSyntheticBoundary f.largestPointKey.userKey with
              | none => none
              | some bkv => some ({ l with largestBoundary := some bkv }, some bkv)
          else
            if (l.skipFwdLoad).2 = .noFileLoaded then
              some ({ (l.skipFwdLoad).1 with exhaustedDir := 1 }, none)
            else
              match (l.skipFwdLoad).1.iter with
              | none => none
              | some it2 =>
                match (it2.first).2 with
                | some kv =>
                  some ({ (l.skipFwdLoad).1 with iter := some (it2.first).1 }, some kv)
                | none =>
                  LevelIter.skipEmptyFileForwardLoop
                    { (l.skipFwdLoad).1 with iter := some (it2.first).1 } fuel
      else
        if (l.skipFwdLoad).2 = .noFileLoaded then
          some ({ (l.skipFwdLoad).1 with exhaustedDir := 1 }, none)
        else
          match (l.skipFwdLoad).1.iter with
          | none => none
          | some it2 =>
            match (it2.first).2 with
            | some kv =>
              some ({ (l.skipFwdLoad).1 with iter := some (it2.first).1 }, some kv)
            | none =>
              LevelIter.skipEmptyFileForwardLoop
                { (l.skipFwdLoad).1 with iter := some (it2.first).1 } fuel

/-- skipEmptyFileForward with enough fuel for its loop to finish. -/
def LevelIter.skipEmptyFileForward (l : LevelIter) : OpResult :=
  l.skipEmptyFileForwardLoop (l.files.files.length + 4)

/-- The loop of skipEmptyFileBackward (level_iter.go:987), symmetric to
the forward variant with the lower bound and the file's smallest point
key. -/
def LevelIter.skipEmptyFileBackwardLoop (l : LevelIter) : Nat → OpResult
  | 0 => some (l, none)
  | fuel + 1 =>
    match l.iter with
    | none => none
    | some it =>
      if it.err.isSome then some (l, none)
      else if l.rangeDelRegistered then
        match l.tableOptsLower with
        | some lb =>
          if l.rangeDelSlot.isSome then
            match l.makeSyntheticBoundary lb with
            | none => none
            | some bkv =>
              some ({ l with exhaustedDir := -1, smallestBoundary := some bkv }, some bkv)
          else some ({ l with exhaustedDir := -1 }, none)
        | none =>
          if l.rangeDelSlot.isSome then
            match l.iterFile with
            | none => none
            | some f =>
              match l.makeSyntheticBoundary f.smallestPointKey.userKey with
              | none => none
              | some bkv => some ({ l with smallestBoundary := some bkv }, some bkv)
          else
            if (l.skipBwdLoad).2 = .noFileLoaded then
              some ({ (l.skipBwdLoad).1 with exhaustedDir := -1 }, none)
            else
              match (l.skipBwdLoad).1.iter with
              | none => none
              | some it2 =>
                match (it2.last).2 with
                | some kv =>
                  some ({ (l.skipBwdLoad).1 with iter := some (it2.last).1 }, some kv)
                | none =>
                  LevelIter.skipEmptyFileBackwardLoop
                    { (l.skipBwdLoad).1 with iter := some (it2.last).1 } fuel
      else
        if (l.skipBwdLoad).2 = .noFileLoaded then
          some ({ (l.skipBwdLoad).1 with exhaustedDir := -1 }, none)
        else
          match (l.skipBwdLoad).1.iter with
          | none => none
          | some it2 =>
            match (it2.last).2 with
            | some kv =>
              some ({ (l.skipBwdLoad).1 with iter := some (it2.last).1 }, some kv)
            | none =>
              LevelIter.skipEmptyFileBackwardLoop
                { (l.skipBwdLoad).1 with iter := some (it2.last).1 } fuel

/-- skipEmptyFileBackward with enough fuel for its loop to finish. -/
def LevelIter.skipEmptyFileBackward (l : LevelIter) : OpResult :=
  l.skipEmptyFileBackwardLoop (l.files.files.length + 4)

/-- Install the advanced inner iterator and either return its key-value
pair or run the forward skip (the common tail of the forward positioning
operations). -/
def LevelIter.postPoint (l1 : LevelIter) (r : InnerIter × Option InternalKV) : OpResult :=
  match r.2 with
  | some kv => some ({ l1 with iter := some r.1 }, some kv)
  | none => LevelIter.skipEmptyFileForward { l1 with iter := some r.1 }

/-- Backward counterpart of postPoint. -/
def LevelIter.postPointBwd (l1 : LevelIter) (r : InnerIter × Option InternalKV) : OpResult :=
  match r.2 with
  | some kv => some ({ l1 with iter := some r.1 }, some kv)
  | none => LevelIter.skipEmptyFileBackward { l1 with iter := some r.1 }

/-- The findFileGE-and-loadFile positioning step shared by SeekGE and
SeekPrefixGE (level_iter.go:643, 669). -/
def LevelIter.seekGEPosition (l : LevelIter) (key : Key) (flags : SeekGEFlags) :
    LevelIter × LoadFileReturnIndicator :=
  ((l.findFileGE key flags).1).loadFile ((l.findFileGE key flags).2.1) 1

/-- The tail of SeekGE after positioning: strip TrySeekUsingNext when a
new file was loaded, seek the inner iterator, skip empty files. -/
def LevelIter.seekGEFinish (rl : LevelIter × LoadFileReturnIndicator) (key : Key)
    (flags : SeekGEFlags) : OpResult :=
  if rl.2 = .noFileLoaded then some ({ rl.1 with exhaustedDir := 1 }, none)
  else
    match rl.1.iter with
    | none => none
    | some it =>
      LevelIter.postPoint rl.1
        (it.seekGE key
          (if rl.2 = .newFileLoaded then flags.disableTrySeekUsingNext else flags))

/-- SeekGE (level_iter.go:634). -/
def LevelIter.SeekGE (l : LevelIter) (key : Key) (flags : SeekGEFlags) : OpResult :=
  LevelIter.seekGEFinish
    (({ l with err := none, exhaustedDir := 0 } : LevelIter).seekGEPosition key flags)
    key flags

/-- The tail of SeekPrefixGE after the inner SeekPrefixGE call, with l1
the positioned state before installing the advanced inner iterator r.1
(level_iter.go:679-714).  The boundary-emissivity test reads fields the
iterator installation does not change. -/
def LevelIter.seekPrefixGEPost (l1 : LevelIter) (pfx : Key)
    (r : InnerIter × Option InternalKV) : OpResult :=
  match r.2 with
  | some kv => some ({ l1 with iter := some r.1 }, some kv)
  | none =>
    if r.1.err.isSome then some ({ l1 with iter := some r.1 }, none)
    else if l1.emitSyntheticBoundaries then
      match l1.tableOptsUpper with
      | some ub =>
        match l1.makeSyntheticBoundary ub with
        | none => none
        | some bkv =>
          some ({ l1 with
                    iter := some r.1, largestBoundary := some bkv,
                    exhaustedDir := 1 }, some bkv)
      | none =>
        match l1.iterFile with
        | none => none
        | some f =>
          match l1.makeSyntheticBoundary f.largestPointKey.userKey with
          | none => none
          | some bkv =>
            some ({ l1 with iter := some r.1, largestBoundary := some bkv }, some bkv)
    else
      match l1.iterFile with
      | none => none
      | some f =>
        if keyLt pfx (f.largestPointKey.userKey.take (l1.split f.largestPointKey.userKey)) then
          some ({ l1 with iter := some r.1, exhaustedDir := 1 }, none)
        else LevelIter.skipEmptyFileForward { l1 with iter := some r.1 }

/-- The tail of SeekPrefixGE after positioning. -/
def LevelIter.seekPrefixGEFinish (rl : LevelIter × LoadFileReturnIndicator)
    (pfx key : Key) (flags : SeekGEFlags) : OpResult :=
  if rl.2 = .noFileLoaded then some ({ rl.1 with exhaustedDir := 1 }, none)
  else
    match rl.1.iter with
    | none => none
    | some it =>
      LevelIter.seekPrefixGEPost rl.1 pfx
        (it.seekPrefixGE pfx key
          (if rl.2 = .newFileLoaded then flags.disableTrySeekUsingNext else flags))

/-- SeekPrefixGE (level_iter.go:659). -/
def LevelIter.SeekPrefixGE (l : LevelIter) (pfx key : Key) (flags : SeekGEFlags) :
    OpResult :=
  LevelIter.seekPrefixGEFinish
    (({ l with err := none, exhaustedDir := 0 } : LevelIter).seekGEPosition key flags)
    pfx key flags

/-- The findFileLT-and-loadFile positioning step of SeekLT. -/
def LevelIter.seekLTPosition (l : LevelIter) (key : Key) (flags : SeekLTFlags) :
    LevelIter × LoadFileReturnIndicator :=
  ((l.findFileLT key flags).1).loadFile ((l.findFileLT key flags).2) (-1)

/-- The tail of SeekLT after positioning. -/
def LevelIter.seekLTFinish (rl : LevelIter × LoadFileReturnIndicator) (key : Key)
    (flags : SeekLTFlags) : OpResult :=
  if rl.2 = .noFileLoaded then some ({ rl.1 with exhaustedDir := -1 }, none)
  else
    match rl.1.iter with
    | none => none
    | some it => LevelIter.postPointBwd rl.1 (it.seekLT key flags)

/-- SeekLT (level_iter.go:717). -/
def LevelIter.SeekLT (l : LevelIter) (key : Key) (flags : SeekLTFlags) : OpResult :=
  LevelIter.seekLTFinish
    (({ l with err := none, exhaustedDir := 0 } : LevelIter).seekLTPosition key flags)
    key flags

/-- The tail of First after loading a file: inner First then forward
skip; also the advance-past-boundary tail of Next (level_iter.go:803-810). -/
def LevelIter.firstFinish (rl : LevelIter × LoadFileReturnIndicator) : OpResult :=
  if rl.2 = .noFileLoaded then some ({ rl.1 with exhaustedDir := 1 }, none)
  else
    match rl.1.iter with
    | none => none
    | some it => LevelIter.postPoint rl.1 (it.first)

/-- First (level_iter.go:737). -/
def LevelIter.First (l : LevelIter) : OpResult :=
  LevelIter.firstFinish
    (LevelIter.loadFile
      { l with err := none, exhaustedDir := 0, files := (l.files.first).1 }
      ((l.files.first).2) 1)

/-- The tail of Last after loading a file; also the advance tail of Prev. -/
def LevelIter.lastFinish (rl : LevelIter × LoadFileReturnIndicator) : OpResult :=
  if rl.2 = .noFileLoaded then some ({ rl.1 with exhaustedDir := -1 }, none)
  else
    match rl.1.iter with
    | none => none
    | some it => LevelIter.postPointBwd rl.1 (it.last)

/-- Last (level_iter.go:757). -/
def LevelIter.Last (l : LevelIter) : OpResult :=
  LevelIter.lastFinish
    (LevelIter.loadFile
      { l with err := none, exhaustedDir := 0, files := (l.files.last).1 }
      ((l.files.last).2) (-1))

/-- Next (level_iter.go:777). -/
def LevelIter.Next (l : LevelIter) : OpResult :=
  if l.exhaustedDir = -1 then
    match l.lower with
    | some lo => l.SeekGE lo seekGEFlagsNone
    | none => l.First
  else if l.err.isSome || l.iter.isNone then some (l, none)
  else
    match l.largestBoundary with
    | some _ =>
      if l.tableOptsUpper.isSome then
        some ((if l.rangeDelRegistered then
                { l with rangeDelSlot := none, exhaustedDir := 1 }
               else { l with exhaustedDir := 1 }), none)
      else LevelIter.firstFinish (l.skipFwdLoad)
    | none =>
      match l.iter with
      | none => none
      | some it => LevelIter.postPoint { l with smallestBoundary := none } (it.next)

/-- The metadataSeekFlags local of NextPrefix (level_iter.go:859):
TrySeekUsingNext and RelativeSeek both enabled. -/
def nextPrefixMetadataSeekFlags : SeekGEFlags :=
  (seekGEFlagsNone.enableTrySeekUsingNext).enableRelativeSeek

/-- The tail of NextPrefix (level_iter.go:856-869): seek the level cursor
for succKey with both hint flags, then SeekGE the fresh inner iterator
without TrySeekUsingNext. -/
def LevelIter.nextPrefixFinish (rl : LevelIter × LoadFileReturnIndicator)
    (succKey : Key) : OpResult :=
  if rl.2 = .noFileLoaded then some ({ rl.1 with exhaustedDir := 1 }, none)
  else
    match rl.1.iter with
    | none => none
    | some it => LevelIter.postPoint rl.1 (it.seekGE succKey seekGEFlagsNone)

/-- The metadata seek and reload of the NextPrefix tail. -/
def LevelIter.nextPrefixSeek (l : LevelIter) (succKey : Key) : OpResult :=
  LevelIter.nextPrefixFinish
    (((l.findFileGE succKey nextPrefixMetadataSeekFlags).1).loadFile
      ((l.findFileGE succKey nextPrefixMetadataSeekFlags).2.1) 1) succKey

/-- NextPrefix (level_iter.go:822). -/
def LevelIter.NextPrefix (l : LevelIter) (succKey : Key) : OpResult :=
  if l.err.isSome || l.iter.isNone then some (l, none)
  else
    match l.largestBoundary with
    | some _ =>
      if l.tableOptsUpper.isSome then
        some ((if l.rangeDelRegistered then { l with rangeDelSlot := none } else l), none)
      else l.nextPrefixSeek succKey
    | none =>
      match l.iter with
      | none => none
      | some it =>
        match (it.nextPrefix succKey).2 with
        | some kv =>
          some ({ l with
                    smallestBoundary := none,
                    iter := some (it.nextPrefix succKey).1 }, some kv)
        | none =>
          if (it.nextPrefix succKey).1.err.isSome then
            some ({ l with
                      smallestBoundary := none,
                      iter := some (it.nextPrefix succKey).1 }, none)
          else
            LevelIter.nextPrefixSeek
              { l with
                  smallestBoundary := none,
                  iter := some (it.nextPrefix succKey).1 } succKey

/-- Prev (level_iter.go:872). -/
def LevelIter.Prev (l : LevelIter) : OpResult :=
  if l.exhaustedDir = 1 then
    match l.upper with
    | some u => l.SeekLT u seekLTFlagsNone
    | none => l.Last
  else if l.err.isSome || l.iter.isNone then some (l, none)
  else
    match l.smallestBoundary with
    | some _ =>
      if l.tableOptsLower.isSome then
        some ((if l.rangeDelRegistered then
                { l with rangeDelSlot := none, exhaustedDir := -1 }
               else { l with exhaustedDir := -1 }), none)
      else LevelIter.lastFinish (l.skipBwdLoad)
    | none =>
      match l.iter with
      | none => none
      | some it => LevelIter.postPointBwd { l with largestBoundary := none } (it.prev)

/-- Error (level_iter.go:1051): the sticky level iterator error if set or
if no inner iterator is open, else the inner iterator's error. -/
def LevelIter.errorOp (l : LevelIter) : Option GoErr :=
  if l.err.isSome || l.iter.isNone then l.err
  else
    match l.iter with
    | some it => it.err
    | none => none

/-- Monotonicity contract of the comparer's split function: comparing by
the split-off key portion is consistent with comparing whole keys. -/
def SplitMono (split : Key → Nat) : Prop :=
  ∀ a b : Key, keyLt a b = true →
    keyLt (b.take (split b)) (a.take (split a)) = false

/-- A user key lies within the iteration bounds [lower, upper). -/
def boundsOK (lower upper : Option Key) (k : Key) : Bool :=
  (match lower with
   | none => true
   | some lo => ! keyLt k lo) &&
  (match upper with
   | none => true
   | some u => keyLt k u)

/-- All point keys of a level, in file order. -/
def levelKeys (files : List FileMeta) : List Key :=
  (files.map FileMeta.pointKeys).flatten

/-- The point keys of the level that lie within the iterator's bounds. -/
def inBoundsKeys (l : LevelIter) : List Key :=
  (levelKeys l.files.files).filter (boundsOK l.lower l.upper)

/-- A plain point-key file: sorted nonempty point keys, correct extreme
metadata, no range keys, no tombstones and an error-free opener. -/
def CleanFile (f : FileMeta) : Prop :=
  f.pointKeys ≠ [] ∧
  f.pointKeys.Chain' (fun a b => keyLt a b = true) ∧
  f.smallestPointKey = ⟨f.pointKeys.headI, false⟩ ∧
  f.largestPointKey = ⟨f.pointKeys.getLastD [], false⟩ ∧
  f.smallest = f.smallestPointKey ∧
  f.largest = f.largestPointKey ∧
  f.hasPointKeys = true ∧
  f.hasRangeKeys = false ∧
  f.openErr = none ∧
  f.ptCloseErr = none ∧
  f.hasRangeDels = false

/-- A clean level: clean files, strictly ordered and disjoint. -/
def CleanLevel (files : List FileMeta) : Prop :=
  (∀ f ∈ files, CleanFile f) ∧
  files.Chain' (fun a b => keyLt (a.pointKeys.getLastD []) (b.pointKeys.headI) = true)

/-- The open inner iterator corresponds to the current file: it iterates
that file's point keys, carries no error, and its per-table bounds agree
with the level iterator's bounds on every key of the file. -/
def IterMatchesFile (l : LevelIter) : Prop :=
  ∀ it, l.iter = some it →
    ∃ f, l.iterFile = some f ∧ it.err = none ∧ it.keys = f.pointKeys ∧
      ∀ k ∈ f.pointKeys, it.inBounds k = boundsOK l.lower l.upper k

/-- A trivial split function: the whole key is its own split-off portion. -/
def splitFull : Key → Nat := fun k => k.length

/-- A point-key-only file for the concrete scenarios. -/
def mkPointFile (num : Nat) (ks : List Key) : FileMeta :=
  { fileNum := num
    smallest := ⟨ks.headI, false⟩
    largest := ⟨ks.getLastD [], false⟩
    smallestPointKey := ⟨ks.headI, false⟩
    largestPointKey := ⟨ks.getLastD [], false⟩
    smallestRangeKey := []
    largestRangeKey := []
    hasPointKeys := true
    hasRangeKeys := false
    statsValid := true
    numRangeKeySets := 0
    pointKeys := ks
    openErr := none
    hasRangeDels := false
    rdCloseErr := none
    ptCloseErr := none }

/-- A freshly constructed level iterator over the given files with no
bounds and no registered slots. -/
def baseState (fs : List FileMeta) : LevelIter :=
  { split := splitFull
    lower := none
    upper := none
    tableOptsLower := none
    tableOptsUpper := none
    smallestBoundary := none
    largestBoundary := none
    combined := none
    iter := none
    iterFile := none
    rangeDelRegistered := false
    rangeDelSlot := none
    rangeDelCopy := none
    files := ⟨fs, -1⟩
    err := none
    exhaustedDir := 0
    nextIid := 0
    openCount := 0
    closeLog := []
    ffgeLog := [] }

/-- The key kN of scenario S4 as bytes. -/
def kf (i : Nat) : Key := [107, 48 + i]

/-- Scenario S4's level: 8 files of one key each, k1 through k8. -/
def s4Files : List FileMeta :=
  [mkPointFile 0 [kf 1], mkPointFile 1 [kf 2], mkPointFile 2 [kf 3],
   mkPointFile 3 [kf 4], mkPointFile 4 [kf 5], mkPointFile 5 [kf 6],
   mkPointFile 6 [kf 7], mkPointFile 7 [kf 8]]

/-- Scenario S4's iterator state: positioned at k2 (file index 1). -/
def s4State : LevelIter :=
  { baseState s4Files with
    iterFile := some (mkPointFile 1 [kf 2])
    iter := some ⟨0, splitFull, [kf 2], none, none, 0, none, none⟩
    files := ⟨s4Files, 1⟩
    nextIid := 2
    openCount := 1 }

/-- A live tombstone-iterator handle for the concrete scenarios. -/
def rdIt : RangeDelIter := ⟨1, none⟩

/-- A state for witnessing the forward skip pause: a single file with a
live tombstone iterator in the registered slot, an exhausted error-free
inner iterator, and the upper bound b falling inside the table. -/
def c1State : LevelIter :=
  { baseState [mkPointFile 0 [[97]]] with
    upper := some [98]
    tableOptsUpper := some [98]
    iterFile := some (mkPointFile 0 [[97]])
    iter := some ⟨0, splitFull, [[97]], none, some [98], 5, none, none⟩
    files := ⟨[mkPointFile 0 [[97]]], 0⟩
    rangeDelRegistered := true
    rangeDelSlot := some rdIt
    rangeDelCopy := some rdIt
    nextIid := 2
    openCount := 1 }

/-- The file of the seek-prefix-early-exit scenario: keys a and xz. -/
def c3File : FileMeta := mkPointFile 0 [[97], [120, 122]]

/-- A state for witnessing the seek-prefix-ge early exit: one file whose
largest key xz shares no prefix with the sought prefix x, no registered
tombstone slot. -/
def c3State : LevelIter :=
  { baseState [c3File] with
    iterFile := some c3File
    iter := some ⟨0, splitFull, [[97], [120, 122]], none, none, 0, none, none⟩
    files := ⟨[c3File], 0⟩
    nextIid := 2
    openCount := 1 }

/-- A state paused at an upper-bound synthetic boundary, for witnessing
the logical-close-and-reload round trip. -/
def c9State : LevelIter :=
  { baseState [mkPointFile 0 [[97]]] with
    upper := some [98]
    tableOptsUpper := some [98]
    iterFile := some (mkPointFile 0 [[97]])
    iter := some ⟨0, splitFull, [[97]], none, some [98], 5, none, none⟩
    files := ⟨[mkPointFile 0 [[97]]], 0⟩
    rangeDelRegistered := true
    rangeDelSlot := some rdIt
    rangeDelCopy := some rdIt
    largestBoundary := some ⟨makeRangeDeleteSentinelKey [98]⟩
    nextIid := 2
    openCount := 1 }

/-- A state with an open point iterator and a tombstone copy carrying
close errors, for witnessing close composition and idempotence. -/
def c8State : LevelIter :=
  { baseState [mkPointFile 0 [[97]]] with
    iterFile := some (mkPointFile 0 [[97]])
    iter := some ⟨0, splitFull, [[97]], none, none, 0, none, some 7⟩
    files := ⟨[mkPointFile 0 [[97]]], 0⟩
    rangeDelRegistered := true
    rangeDelSlot := some ⟨1, some 9⟩
    rangeDelCopy := some ⟨1, some 9⟩
    nextIid := 2
    openCount := 1 }

/-- The hint flags of an ordinary forward walk: TrySeekUsingNext alone. -/
def tsnFlags : SeekGEFlags := seekGEFlagsNone.enableTrySeekUsingNext

/-- The point keys of the files strictly after the cursor's position. -/
def laterKeys (l : LevelIter) : List Key :=
  levelKeys (l.files.files.drop ((l.files.pos + 1).toNat))

/-- The single file of the metadata-seek-flags scenario: one key k1. -/
def c5File : FileMeta := mkPointFile 0 [[107, 49]]

/-- A state positioned at c5File's only key; NextPrefix past it exhausts
the inner iterator and reaches the metadata seek. -/
def c5State : LevelIter :=
  { baseState [c5File] with
    iterFile := some c5File
    iter := some ⟨0, splitFull, [[107, 49]], none, none, 0, none, none⟩
    files := ⟨[c5File], 0⟩
    nextIid := 2
    openCount := 1 }

/-- The inner iterator of the early-exit scenario after its SeekPrefixGE
returned nil without error. -/
def c3Inner : InnerIter := ⟨0, splitFull, [[97], [120, 122]], none, none, 2, none, none⟩

/-- A backward-exhausted fresh state over one file, for witnessing
direction reversal. -/
def c7State : LevelIter :=
  { baseState [mkPointFile 0 [[97]]] with exhaustedDir := -1 }

/-- The range-key-only skip test of the findFileGE loop (level_iter.go:365):
a file holding range keys but no point keys. -/
def rangeKeyOnly (g : FileMeta) : Bool :=
  g.hasRangeKeys && ! g.hasPointKeys

/-- The exclusive-sentinel skip test of the findFileGE loop
(level_iter.go:401): the file's largest point key is a range-deletion
sentinel equal to the sought key, so the file holds nothing at or after
the key. -/
def ffgeSentinelSkip (key : Key) (g : FileMeta) : Bool :=
  g.largestPointKey.sentinel && g.largestPointKey.userKey = key

/-- Where the findFileGE loop stops while stepping under the
TrySeekUsingNext hint (nextInsteadOfSeek set): not a range-key-only file,
largest point key at or above the sought key, and not an exclusive
sentinel equal to it (the three skip branches of level_iter.go:365-404
all fail). -/
def ffgeStopT (key : Key) (g : FileMeta) : Bool :=
  ! rangeKeyOnly g && ! keyLt g.largestPointKey.userKey key &&
    ! ffgeSentinelSkip key g

/-- Where the findFileGE loop stops after a cursor seek (no stepping
hint): as ffgeStopT, except that a file without range keys never steps on
its largest point key (level_iter.go:378 guards the comparison with
hasRangeKeys when nextInsteadOfSeek is unset). -/
def ffgeStopN (key : Key) (g : FileMeta) : Bool :=
  ! rangeKeyOnly g && ! (g.hasRangeKeys && keyLt g.largestPointKey.userKey key) &&
    ! ffgeSentinelSkip key g

/-- The first index at or after j whose file satisfies p; the length of
the level when none does. -/
def findIdxFrom (p : FileMeta → Bool) (fs : List FileMeta) (j : Nat) : Nat :=
  j + (fs.drop j).findIdx p

/-- The index where findFileGE lands: the cursor seek finds the earliest
file whose largest key is at or above the sought key, and the loop then
walks forward to the first file from there on which it stops. -/
def ffgeStopIdx (key : Key) (fs : List FileMeta) : Nat :=
  findIdxFrom (ffgeStopN key) fs
    (fs.findIdx fun f => ! keyLt f.largest.userKey key)

-- ===========================================================================
-- Theorems.  First the order lemmas for keys, then framing lemmas about the
-- embedded operations, then the claims.
-- ===========================================================================

theorem keyLt_irrefl : ∀ a : Key, keyLt a a = false
  | [] => rfl
  | x :: xs => by simp [keyLt, keyLt_irrefl xs]

theorem keyLt_asymm : ∀ a b : Key, keyLt a b = true → keyLt b a = false
  | [], [], h => by simp [keyLt] at h
  | [], _ :: _, _ => by simp [keyLt]
  | _ :: _, [], h => by simp [keyLt] at h
  | a :: as, b :: bs, h => by
    simp only [keyLt, Bool.or_eq_true, Bool.and_eq_true, decide_eq_true_eq] at h
    rcases h with h | ⟨he, hr⟩
    · have h1 : ¬ b < a := Nat.lt_asymm h
      have h2 : ¬ b = a := by omega
      simp [keyLt, h1, h2]
    · subst he
      have hrec := keyLt_asymm as bs hr
      simp [keyLt, hrec]

theorem keyLt_trans : ∀ a b c : Key,
    keyLt a b = true → keyLt b c = true → keyLt a c = true
  | [], [], _, h1, _ => by simp [keyLt] at h1
  | [], _ :: _, [], _, h2 => by simp [keyLt] at h2
  | [], _ :: _, _ :: _, _, _ => by simp [keyLt]
  | _ :: _, [], _, h1, _ => by simp [keyLt] at h1
  | _ :: _, _ :: _, [], _, h2 => by simp [keyLt] at h2
  | a :: as, b :: bs, c :: cs, h1, h2 => by
    simp only [keyLt, Bool.or_eq_true, Bool.and_eq_true, decide_eq_true_eq] at h1 h2 ⊢
    rcases h1 with h1 | ⟨he1, hr1⟩ <;> rcases h2 with h2 | ⟨he2, hr2⟩
    · exact Or.inl (by omega)
    · exact Or.inl (by omega)
    · exact Or.inl (by omega)
    · subst he1; subst he2
      exact Or.inr ⟨rfl, keyLt_trans as bs cs hr1 hr2⟩

theorem keyLt_conn : ∀ a b : Key, keyLt a b = false → keyLt b a = false → a = b
  | [], [], _, _ => rfl
  | [], _ :: _, h1, _ => by simp [keyLt] at h1
  | _ :: _, [], _, h2 => by simp [keyLt] at h2
  | a :: as, b :: bs, h1, h2 => by
    simp only [keyLt, Bool.or_eq_false_iff, Bool.and_eq_false_iff,
      decide_eq_false_iff_not, decide_eq_true_eq] at h1 h2
    have he : a = b := by omega
    subst he
    have : as = bs := by
      rcases h1.2 with h | h
      · omega
      · rcases h2.2 with h' | h'
        · omega
        · exact keyLt_conn as bs h h'
    rw [this]

theorem mtci_shape (l : LevelIter) (file : Option FileMeta) (dir : Int) :
    ∃ c, l.maybeTriggerCombinedIteration file dir = { l with combined := c } := by
  unfold LevelIter.maybeTriggerCombinedIteration
  repeat' split
  all_goals exact ⟨_, rfl⟩

theorem ffgeLoop_shape : ∀ (fuel : Nat) (l : LevelIter) (key : Key) (m : Option FileMeta)
    (nios : Bool) (nus : Int) (steps : Nat) (fb : Bool),
    ∃ c fs, (LevelIter.findFileGELoop l key m nios nus steps fb fuel).1 =
      { l with combined := c, files := fs }
  | 0, l, _, m, _, _, _, _ => ⟨l.combined, l.files, rfl⟩
  | fuel + 1, l, key, m, nios, nus, steps, fb => by
    rcases m with _ | mf
    · exact ⟨l.combined, l.files, rfl⟩
    obtain ⟨c0, hc0⟩ := mtci_shape l (some mf) 1
    simp only [LevelIter.findFileGELoop]
    split
    · obtain ⟨c2, fs2, h2⟩ := ffgeLoop_shape fuel _ key _ nios nus steps fb
      exact ⟨c2, fs2, by rw [h2]; split <;> (try rw [hc0]) <;> rfl⟩
    · split
      · split
        · obtain ⟨c2, fs2, h2⟩ := ffgeLoop_shape fuel _ key _ false nus steps true
          exact ⟨c2, fs2, by rw [h2]; split <;> (try rw [hc0]) <;> rfl⟩
        · obtain ⟨c2, fs2, h2⟩ := ffgeLoop_shape fuel _ key _ nios _ _ fb
          exact ⟨c2, fs2, by rw [h2]; split <;> (try rw [hc0]) <;> rfl⟩
      · split
        · obtain ⟨c2, fs2, h2⟩ := ffgeLoop_shape fuel _ key _ nios nus steps fb
          exact ⟨c2, fs2, by rw [h2]; split <;> (try rw [hc0]) <;> rfl⟩
        · split
          · exact ⟨c0, l.files, by rw [hc0]⟩
          · exact ⟨l.combined, l.files, rfl⟩

theorem itbUpper_shape (l : LevelIter) (f : FileMeta) :
    ∃ b, (l.initTableBoundsUpper f).1 = { l with tableOptsUpper := b } := by
  unfold LevelIter.initTableBoundsUpper
  dsimp only
  rcases hu : l.upper with _ | ub
  all_goals try dsimp only
  · exact ⟨_, rfl⟩
  · split
    · exact ⟨_, rfl⟩
    · split
      · exact ⟨_, rfl⟩
      · exact ⟨_, rfl⟩

theorem itb_shape (l : LevelIter) (f : FileMeta) :
    ∃ a b, (l.initTableBounds f).1 = { l with tableOptsLower := a, tableOptsUpper := b } := by
  unfold LevelIter.initTableBounds
  dsimp only
  rcases hlo : l.lower with _ | lb
  all_goals try dsimp only
  · obtain ⟨b, hb⟩ :=
      itbUpper_shape { l with lower := none, tableOptsLower := none } f
    exact ⟨none, b, hb⟩
  · split
    · exact ⟨_, _, rfl⟩
    · split
      · obtain ⟨b, hb⟩ :=
          itbUpper_shape { l with lower := some lb, tableOptsLower := none } f
        exact ⟨none, b, hb⟩
      · obtain ⟨b, hb⟩ :=
          itbUpper_shape { l with lower := some lb, tableOptsLower := some lb } f
        exact ⟨some lb, b, hb⟩

theorem ffge_shape (l : LevelIter) (key : Key) (flags : SeekGEFlags) :
    ∃ c fs, (l.findFileGE key flags).1 =
      { l with combined := c, files := fs, ffgeLog := l.ffgeLog ++ [flags] } := by
  unfold LevelIter.findFileGE
  dsimp only
  split
  · obtain ⟨c2, fs2, h2⟩ := ffgeLoop_shape _ _ key _ _ _ 0 false
    exact ⟨c2, fs2, by rw [h2]⟩
  · obtain ⟨c2, fs2, h2⟩ := ffgeLoop_shape _ _ key _ _ _ 0 false
    exact ⟨c2, fs2, by rw [h2]⟩

theorem ffltLoop_shape : ∀ (fuel : Nat) (l : LevelIter) (key : Key) (m : Option FileMeta)
    (pios : Bool),
    ∃ c fs, (LevelIter.findFileLTLoop l key m pios fuel).1 =
      { l with combined := c, files := fs }
  | 0, l, _, m, _ => ⟨l.combined, l.files, rfl⟩
  | fuel + 1, l, key, m, pios => by
    rcases m with _ | mf
    · exact ⟨l.combined, l.files, rfl⟩
    obtain ⟨c0, hc0⟩ := mtci_shape l (some mf) (-1)
    simp only [LevelIter.findFileLTLoop]
    split
    · obtain ⟨c2, fs2, h2⟩ := ffltLoop_shape fuel _ key _ pios
      exact ⟨c2, fs2, by rw [h2]; split <;> (try rw [hc0]) <;> rfl⟩
    · split
      · obtain ⟨c2, fs2, h2⟩ := ffltLoop_shape fuel _ key _ pios
        exact ⟨c2, fs2, by rw [h2]; split <;> (try rw [hc0]) <;> rfl⟩
      · split
        · exact ⟨c0, l.files, hc0⟩
        · exact ⟨l.combined, l.files, rfl⟩

theorem fflt_shape (l : LevelIter) (key : Key) (flags : SeekLTFlags) :
    ∃ c fs, (l.findFileLT key flags).1 = { l with combined := c, files := fs } := by
  unfold LevelIter.findFileLT
  dsimp only
  split
  · obtain ⟨c2, fs2, h2⟩ := ffltLoop_shape _ _ key _ _
    exact ⟨c2, fs2, by rw [h2]⟩
  · obtain ⟨c2, fs2, h2⟩ := ffltLoop_shape _ _ key _ _
    exact ⟨c2, fs2, by rw [h2]⟩

theorem closeOp_shape (l : LevelIter) :
    ∃ e lg sl cp, l.closeOp =
      ({ l with
           err := e, iter := none, closeLog := lg,
           rangeDelSlot := sl, rangeDelCopy := cp }, e) := by
  unfold LevelIter.closeOp
  rcases hit : l.iter with _ | it
  all_goals try dsimp only
  · by_cases hreg : l.rangeDelRegistered = true
    · rw [if_pos hreg]
      split
      · exact ⟨_, _, _, _, by rw [← hit]⟩
      · exact ⟨_, _, _, _, by rw [← hit]⟩
    · rw [if_neg hreg]
      exact ⟨_, _, _, _, by rw [← hit]⟩
  · by_cases hreg : l.rangeDelRegistered = true
    · rw [if_pos hreg]
      split
      · exact ⟨_, _, _, _, rfl⟩
      · exact ⟨_, _, _, _, rfl⟩
    · rw [if_neg hreg]
      exact ⟨_, _, _, _, rfl⟩


theorem lfState_shape (l : LevelIter) (f : FileMeta) (dir : Int) :
    ∃ c, l.lfState f dir = { l with iterFile := some f, combined := c } := by
  obtain ⟨c0, hc0⟩ := mtci_shape ({ l with iterFile := some f } : LevelIter) (some f) dir
  exact ⟨c0, hc0⟩

theorem lfBounds_shape (l : LevelIter) (f : FileMeta) (dir : Int) :
    ∃ c a b, l.lfBounds f dir =
      { l with
          iterFile := some f, combined := c, tableOptsLower := a,
          tableOptsUpper := b } := by
  obtain ⟨c, hc⟩ := lfState_shape l f dir
  obtain ⟨a, b, hb⟩ := itb_shape (l.lfState f dir) f
  refine ⟨c, a, b, ?_⟩
  unfold LevelIter.lfBounds
  rw [hb, hc]

theorem lfOpen_run (l : LevelIter) (f : FileMeta) :
    ∃ e it oc ni sl cp, (l.lfOpen f).1 =
      { l with
          err := e, iter := it, openCount := oc, nextIid := ni,
          rangeDelSlot := sl, rangeDelCopy := cp } ∧
      ((l.lfOpen f).2 ≠ .noFileLoaded → it.isSome = true) := by
  unfold LevelIter.lfOpen
  rcases hoe : f.openErr with _ | e
  all_goals try dsimp only
  · split
    · exact ⟨_, _, _, _, _, _, rfl, fun _ => rfl⟩
    · exact ⟨_, _, _, _, _, _, rfl, fun _ => rfl⟩
  · exact ⟨_, _, _, _, _, _, rfl, fun h => absurd rfl h⟩

theorem loadFileLoop_run : ∀ (fuel : Nat) (l : LevelIter) (file : Option FileMeta)
    (dir : Int),
    ∃ itf cmb fs tol tou e it oc ni sl cp,
    (LevelIter.loadFileLoop l file dir fuel).1 =
      { l with
          iterFile := itf, combined := cmb, files := fs, tableOptsLower := tol,
          tableOptsUpper := tou, err := e, iter := it, openCount := oc,
          nextIid := ni, rangeDelSlot := sl, rangeDelCopy := cp } ∧
      ((LevelIter.loadFileLoop l file dir fuel).2 ≠ .noFileLoaded →
        it.isSome = true ∧ itf.isSome = true)
  | 0, l, file, dir => by
    rcases file with _ | f
    · exact ⟨_, _, _, _, _, _, _, _, _, _, _, rfl, fun h => absurd rfl h⟩
    · exact ⟨_, _, _, _, _, _, _, _, _, _, _, rfl, fun h => absurd rfl h⟩
  | fuel + 1, l, none, dir =>
    ⟨_, _, _, _, _, _, _, _, _, _, _, rfl, fun h => absurd rfl h⟩
  | fuel + 1, l, some f, dir => by
    obtain ⟨cS, hS⟩ := lfState_shape l f dir
    obtain ⟨cB, aB, bB, hB⟩ := lfBounds_shape l f dir
    rw [LevelIter.loadFileLoop]
    split
    · obtain ⟨a1, a2, a3, a4, a5, a6, a7, a8, a9, a10, a11, hIH, hIH2⟩ :=
        loadFileLoop_run fuel _ _ dir
      exact ⟨_, _, _, _, _, _, _, _, _, _, _, by rw [hIH, hS], hIH2⟩
    · split
      · obtain ⟨a1, a2, a3, a4, a5, a6, a7, a8, a9, a10, a11, hIH, hIH2⟩ :=
          loadFileLoop_run fuel _ _ dir
        exact ⟨_, _, _, _, _, _, _, _, _, _, _, by rw [hIH, hS], hIH2⟩
      · split
        · split
          · exact ⟨_, _, _, _, _, _, _, _, _, _, _, by rw [hB], fun h => absurd rfl h⟩
          · obtain ⟨a1, a2, a3, a4, a5, a6, a7, a8, a9, a10, a11, hIH, hIH2⟩ :=
              loadFileLoop_run fuel _ _ dir
            exact ⟨_, _, _, _, _, _, _, _, _, _, _, by rw [hIH, hB], hIH2⟩
        · split
          · split
            · exact ⟨_, _, _, _, _, _, _, _, _, _, _, by rw [hB], fun h => absurd rfl h⟩
            · obtain ⟨a1, a2, a3, a4, a5, a6, a7, a8, a9, a10, a11, hIH, hIH2⟩ :=
                loadFileLoop_run fuel _ _ dir
              exact ⟨_, _, _, _, _, _, _, _, _, _, _, by rw [hIH, hB], hIH2⟩
          · obtain ⟨e2, it2, oc2, ni2, sl2, cp2, hO, hO2⟩ := lfOpen_run (l.lfBounds f dir) f
            refine ⟨some f, cB, (l.lfBounds f dir).files, aB, bB, e2, it2, oc2, ni2,
              sl2, cp2, ?_, ?_⟩
            · rw [hO, hB]
            · intro h
              exact ⟨hO2 h, rfl⟩

theorem loadFileClose_run (l : LevelIter) (file : Option FileMeta) (dir : Int) :
    ∃ itf cmb fs tol tou e it oc ni sl cp lg,
    (LevelIter.loadFileClose l file dir).1 =
      { l with
          iterFile := itf, combined := cmb, files := fs, tableOptsLower := tol,
          tableOptsUpper := tou, err := e, iter := it, openCount := oc,
          nextIid := ni, rangeDelSlot := sl, rangeDelCopy := cp, closeLog := lg } ∧
      ((LevelIter.loadFileClose l file dir).2 ≠ .noFileLoaded →
        it.isSome = true ∧ itf.isSome = true) := by
  unfold LevelIter.loadFileClose
  obtain ⟨e0, lg0, sl0, cp0, hc⟩ := closeOp_shape l
  rw [hc]
  rcases e0 with _ | ev
  · dsimp only
    obtain ⟨a1, a2, a3, a4, a5, a6, a7, a8, a9, a10, a11, hL, hL2⟩ :=
      loadFileLoop_run _ _ file dir
    exact ⟨_, _, _, _, _, _, _, _, _, _, _, _, by rw [hL], hL2⟩
  · dsimp only
    exact ⟨_, _, _, _, _, _, _, _, _, _, _, _, rfl, fun h => absurd rfl h⟩

theorem loadFile_run (l : LevelIter) (file : Option FileMeta) (dir : Int)
    (hsane : l.iter.isSome = true → l.iterFile.isSome = true) :
    ∃ itf cmb fs tol tou e it oc ni sl cp lg,
    (l.loadFile file dir).1 =
      { l with
          smallestBoundary := none, largestBoundary := none,
          iterFile := itf, combined := cmb, files := fs, tableOptsLower := tol,
          tableOptsUpper := tou, err := e, iter := it, openCount := oc,
          nextIid := ni, rangeDelSlot := sl, rangeDelCopy := cp, closeLog := lg } ∧
      ((l.loadFile file dir).2 ≠ .noFileLoaded →
        it.isSome = true ∧ itf.isSome = true) := by
  unfold LevelIter.loadFile
  split
  · split
    · exact ⟨_, _, _, _, _, _, _, _, _, _, _, _, rfl, fun h => absurd rfl h⟩
    · rcases hit : l.iter with _ | itv
      all_goals try dsimp only
      · obtain ⟨a1, a2, a3, a4, a5, a6, a7, a8, a9, a10, a11, a12, hC, hC2⟩ :=
          loadFileClose_run l.loadFileReset file dir
        exact ⟨_, _, _, _, _, _, _, _, _, _, _, _, by rw [hC]; rfl, hC2⟩
      · obtain ⟨c0, hc0⟩ := mtci_shape
          ((if l.rangeDelRegistered then
              { l.loadFileReset with rangeDelSlot := l.rangeDelCopy }
            else l.loadFileReset) : LevelIter) file dir
        refine ⟨l.iterFile, c0, l.files, l.tableOptsLower, l.tableOptsUpper, l.err,
          l.iter, l.openCount, l.nextIid,
          (if l.rangeDelRegistered then l.rangeDelCopy else l.rangeDelSlot),
          l.rangeDelCopy, l.closeLog, ?_, ?_⟩
        · rw [hc0]
          split
          · rfl
          · rfl
        · intro _
          rw [hit]
          exact ⟨rfl, hsane (by rw [hit]; rfl)⟩
  · obtain ⟨a1, a2, a3, a4, a5, a6, a7, a8, a9, a10, a11, a12, hC, hC2⟩ :=
      loadFileClose_run l.loadFileReset file dir
    exact ⟨_, _, _, _, _, _, _, _, _, _, _, _, by rw [hC]; rfl, hC2⟩

theorem loadFile_some (l : LevelIter) (file : Option FileMeta) (dir : Int)
    (hsane : l.iter.isSome = true → l.iterFile.isSome = true)
    (h : (l.loadFile file dir).2 ≠ .noFileLoaded) :
    (l.loadFile file dir).1.iter.isSome = true ∧
    (l.loadFile file dir).1.iterFile.isSome = true := by
  obtain ⟨a1, a2, a3, a4, a5, a6, a7, a8, a9, a10, a11, a12, h1, h2⟩ :=
    loadFile_run l file dir hsane
  obtain ⟨hi, hf⟩ := h2 h
  rw [h1]
  exact ⟨hi, hf⟩

theorem skipFwdLoad_some (l : LevelIter)
    (hsane : l.iter.isSome = true → l.iterFile.isSome = true)
    (h : (l.skipFwdLoad).2 ≠ .noFileLoaded) :
    (l.skipFwdLoad).1.iter.isSome = true ∧
    (l.skipFwdLoad).1.iterFile.isSome = true :=
  loadFile_some { l with files := (l.files.next).1 } ((l.files.next).2) 1 hsane h

theorem skipBwdLoad_some (l : LevelIter)
    (hsane : l.iter.isSome = true → l.iterFile.isSome = true)
    (h : (l.skipBwdLoad).2 ≠ .noFileLoaded) :
    (l.skipBwdLoad).1.iter.isSome = true ∧
    (l.skipBwdLoad).1.iterFile.isSome = true :=
  loadFile_some { l with files := (l.files.prev).1 } ((l.files.prev).2) (-1) hsane h

theorem skipFwdLoop_ne_none : ∀ (fuel : Nat) (l : LevelIter),
    l.iter.isSome = true → l.iterFile.isSome = true →
    l.skipEmptyFileForwardLoop fuel ≠ none
  | 0, l, _, _ => by simp [LevelIter.skipEmptyFileForwardLoop]
  | fuel + 1, l, hiter, hitf => by
    rw [LevelIter.skipEmptyFileForwardLoop]
    rcases hit : l.iter with _ | it
    · rw [hit] at hiter; simp at hiter
    dsimp only
    split
    · simp
    · split
      · split
        · split
          · unfold LevelIter.makeSyntheticBoundary LevelIter.emitSyntheticBoundaries
            simp_all
          · simp
        · split
          · rcases hf : l.iterFile with _ | f
            · rw [hf] at hitf; simp at hitf
            · dsimp only
              unfold LevelIter.makeSyntheticBoundary LevelIter.emitSyntheticBoundaries
              simp_all
          · split
            · simp
            · rcases his : (l.skipFwdLoad).1.iter with _ | it2
              · have := (skipFwdLoad_some l (fun _ => hitf) (by assumption)).1
                rw [his] at this; simp at this
              · dsimp only
                split
                · simp
                · exact skipFwdLoop_ne_none fuel _ rfl
                    (skipFwdLoad_some l (fun _ => hitf) (by assumption)).2
      · split
        · simp
        · rcases his : (l.skipFwdLoad).1.iter with _ | it2
          · have := (skipFwdLoad_some l (fun _ => hitf) (by assumption)).1
            rw [his] at this; simp at this
          · dsimp only
            split
            · simp
            · exact skipFwdLoop_ne_none fuel _ rfl
                (skipFwdLoad_some l (fun _ => hitf) (by assumption)).2

theorem skipBwdLoop_ne_none : ∀ (fuel : Nat) (l : LevelIter),
    l.iter.isSome = true → l.iterFile.isSome = true →
    l.skipEmptyFileBackwardLoop fuel ≠ none
  | 0, l, _, _ => by simp [LevelIter.skipEmptyFileBackwardLoop]
  | fuel + 1, l, hiter, hitf => by
    rw [LevelIter.skipEmptyFileBackwardLoop]
    rcases hit : l.iter with _ | it
    · rw [hit] at hiter; simp at hiter
    dsimp only
    split
    · simp
    · split
      · split
        · split
          · unfold LevelIter.makeSyntheticBoundary LevelIter.emitSyntheticBoundaries
            simp_all
          · simp
        · split
          · rcases hf : l.iterFile with _ | f
            · rw [hf] at hitf; simp at hitf
            · dsimp only
              unfold LevelIter.makeSyntheticBoundary LevelIter.emitSyntheticBoundaries
              simp_all
          · split
            · simp
            · rcases his : (l.skipBwdLoad).1.iter with _ | it2
              · have := (skipBwdLoad_some l (fun _ => hitf) (by assumption)).1
                rw [his] at this; simp at this
              · dsimp only
                split
                · simp
                · exact skipBwdLoop_ne_none fuel _ rfl
                    (skipBwdLoad_some l (fun _ => hitf) (by assumption)).2
      · split
        · simp
        · rcases his : (l.skipBwdLoad).1.iter with _ | it2
          · have := (skipBwdLoad_some l (fun _ => hitf) (by assumption)).1
            rw [his] at this; simp at this
          · dsimp only
            split
            · simp
            · exact skipBwdLoop_ne_none fuel _ rfl
                (skipBwdLoad_some l (fun _ => hitf) (by assumption)).2

theorem postPoint_ne_none (l1 : LevelIter) (r : InnerIter × Option InternalKV)
    (h : l1.iterFile.isSome = true) : LevelIter.postPoint l1 r ≠ none := by
  unfold LevelIter.postPoint
  rcases r2 : r.2 with _ | kv
  · exact skipFwdLoop_ne_none _ _ rfl h
  · simp

theorem postPointBwd_ne_none (l1 : LevelIter) (r : InnerIter × Option InternalKV)
    (h : l1.iterFile.isSome = true) : LevelIter.postPointBwd l1 r ≠ none := by
  unfold LevelIter.postPointBwd
  rcases r2 : r.2 with _ | kv
  · exact skipBwdLoop_ne_none _ _ rfl h
  · simp

theorem seekGEFinish_ne_none (rl : LevelIter × LoadFileReturnIndicator) (key : Key)
    (flags : SeekGEFlags)
    (hsome : rl.2 ≠ .noFileLoaded →
      rl.1.iter.isSome = true ∧ rl.1.iterFile.isSome = true) :
    LevelIter.seekGEFinish rl key flags ≠ none := by
  unfold LevelIter.seekGEFinish
  split
  · simp
  · rcases hi : rl.1.iter with _ | it
    · have := (hsome (by assumption)).1
      rw [hi] at this; simp at this
    · exact postPoint_ne_none _ _ (hsome (by assumption)).2

theorem firstFinish_ne_none (rl : LevelIter × LoadFileReturnIndicator)
    (hsome : rl.2 ≠ .noFileLoaded →
      rl.1.iter.isSome = true ∧ rl.1.iterFile.isSome = true) :
    LevelIter.firstFinish rl ≠ none := by
  unfold LevelIter.firstFinish
  split
  · simp
  · rcases hi : rl.1.iter with _ | it
    · have := (hsome (by assumption)).1
      rw [hi] at this; simp at this
    · exact postPoint_ne_none _ _ (hsome (by assumption)).2

theorem lastFinish_ne_none (rl : LevelIter × LoadFileReturnIndicator)
    (hsome : rl.2 ≠ .noFileLoaded →
      rl.1.iter.isSome = true ∧ rl.1.iterFile.isSome = true) :
    LevelIter.lastFinish rl ≠ none := by
  unfold LevelIter.lastFinish
  split
  · simp
  · rcases hi : rl.1.iter with _ | it
    · have := (hsome (by assumption)).1
      rw [hi] at this; simp at this
    · exact postPointBwd_ne_none _ _ (hsome (by assumption)).2

theorem seekLTFinish_ne_none (rl : LevelIter × LoadFileReturnIndicator) (key : Key)
    (flags : SeekLTFlags)
    (hsome : rl.2 ≠ .noFileLoaded →
      rl.1.iter.isSome = true ∧ rl.1.iterFile.isSome = true) :
    LevelIter.seekLTFinish rl key flags ≠ none := by
  unfold LevelIter.seekLTFinish
  split
  · simp
  · rcases hi : rl.1.iter with _ | it
    · have := (hsome (by assumption)).1
      rw [hi] at this; simp at this
    · exact postPointBwd_ne_none _ _ (hsome (by assumption)).2

theorem nextPrefixFinish_ne_none (rl : LevelIter × LoadFileReturnIndicator)
    (succKey : Key)
    (hsome : rl.2 ≠ .noFileLoaded →
      rl.1.iter.isSome = true ∧ rl.1.iterFile.isSome = true) :
    LevelIter.nextPrefixFinish rl succKey ≠ none := by
  unfold LevelIter.nextPrefixFinish
  split
  · simp
  · rcases hi : rl.1.iter with _ | it
    · have := (hsome (by assumption)).1
      rw [hi] at this; simp at this
    · exact postPoint_ne_none _ _ (hsome (by assumption)).2

theorem seekPrefixGEPost_ne_none (l1 : LevelIter) (pfx : Key)
    (r : InnerIter × Option InternalKV) (hfm : l1.iterFile.isSome = true) :
    LevelIter.seekPrefixGEPost l1 pfx r ≠ none := by
  unfold LevelIter.seekPrefixGEPost LevelIter.makeSyntheticBoundary
  rcases r2 : r.2 with _ | kv
  · by_cases herr : r.1.err.isSome = true
    · simp [herr]
    · by_cases hemit : l1.emitSyntheticBoundaries = true
      · rcases htu : l1.tableOptsUpper with _ | ub
        · rcases hf : l1.iterFile with _ | f
          · rw [hf] at hfm; simp at hfm
          · simp [herr, hemit]
        · simp [herr, hemit]
      · rcases hf : l1.iterFile with _ | f
        · rw [hf] at hfm; simp at hfm
        · by_cases hlt : keyLt pfx
            (f.largestPointKey.userKey.take (l1.split f.largestPointKey.userKey)) = true
          · simp [herr, hemit, hlt]
          · simp only [herr, hemit, hlt, Bool.false_eq_true, if_false]
            exact skipFwdLoop_ne_none _ _ rfl (by simp)
  · simp

theorem seekPrefixGEFinish_ne_none (rl : LevelIter × LoadFileReturnIndicator)
    (pfx key : Key) (flags : SeekGEFlags)
    (hsome : rl.2 ≠ .noFileLoaded →
      rl.1.iter.isSome = true ∧ rl.1.iterFile.isSome = true) :
    LevelIter.seekPrefixGEFinish rl pfx key flags ≠ none := by
  unfold LevelIter.seekPrefixGEFinish
  split
  · simp
  · rcases hi : rl.1.iter with _ | it
    · have := (hsome (by assumption)).1
      rw [hi] at this; simp at this
    · exact seekPrefixGEPost_ne_none _ _ _ (hsome (by assumption)).2

theorem seekGEPosition_some (l : LevelIter) (key : Key) (flags : SeekGEFlags)
    (hsane : l.iter.isSome = true → l.iterFile.isSome = true)
    (h : (l.seekGEPosition key flags).2 ≠ .noFileLoaded) :
    (l.seekGEPosition key flags).1.iter.isSome = true ∧
    (l.seekGEPosition key flags).1.iterFile.isSome = true := by
  obtain ⟨c, fs, hS⟩ := ffge_shape l key flags
  exact loadFile_some _ _ 1 (by rw [hS]; exact hsane) h

theorem seekLTPosition_some (l : LevelIter) (key : Key) (flags : SeekLTFlags)
    (hsane : l.iter.isSome = true → l.iterFile.isSome = true)
    (h : (l.seekLTPosition key flags).2 ≠ .noFileLoaded) :
    (l.seekLTPosition key flags).1.iter.isSome = true ∧
    (l.seekLTPosition key flags).1.iterFile.isSome = true := by
  obtain ⟨c, fs, hS⟩ := fflt_shape l key flags
  exact loadFile_some _ _ (-1) (by rw [hS]; exact hsane) h

theorem seekGE_ne_none (l : LevelIter) (key : Key) (flags : SeekGEFlags)
    (hsane : l.iter.isSome = true → l.iterFile.isSome = true) :
    l.SeekGE key flags ≠ none := by
  unfold LevelIter.SeekGE
  exact seekGEFinish_ne_none _ key flags
    (seekGEPosition_some _ key flags (fun h => hsane h))

theorem seekPrefixGE_ne_none (l : LevelIter) (pfx key : Key) (flags : SeekGEFlags)
    (hsane : l.iter.isSome = true → l.iterFile.isSome = true) :
    l.SeekPrefixGE pfx key flags ≠ none := by
  unfold LevelIter.SeekPrefixGE
  exact seekPrefixGEFinish_ne_none _ pfx key flags
    (seekGEPosition_some _ key flags (fun h => hsane h))

theorem seekLT_ne_none (l : LevelIter) (key : Key) (flags : SeekLTFlags)
    (hsane : l.iter.isSome = true → l.iterFile.isSome = true) :
    l.SeekLT key flags ≠ none := by
  unfold LevelIter.SeekLT
  exact seekLTFinish_ne_none _ key flags
    (seekLTPosition_some _ key flags (fun h => hsane h))

theorem first_ne_none (l : LevelIter)
    (hsane : l.iter.isSome = true → l.iterFile.isSome = true) :
    l.First ≠ none := by
  unfold LevelIter.First
  exact firstFinish_ne_none _ (loadFile_some _ _ 1 (fun h => hsane h))

theorem last_ne_none (l : LevelIter)
    (hsane : l.iter.isSome = true → l.iterFile.isSome = true) :
    l.Last ≠ none := by
  unfold LevelIter.Last
  exact lastFinish_ne_none _ (loadFile_some _ _ (-1) (fun h => hsane h))

theorem next_ne_none (l : LevelIter)
    (hsane : l.iter.isSome = true → l.iterFile.isSome = true) :
    l.Next ≠ none := by
  unfold LevelIter.Next
  split
  · rcases hlo : l.lower with _ | lo
    · exact first_ne_none l hsane
    · exact seekGE_ne_none l lo seekGEFlagsNone hsane
  · split
    · simp
    · rcases hlb : l.largestBoundary with _ | b
      all_goals try dsimp only
      · rcases hit : l.iter with _ | it
        all_goals try dsimp only
        · rename_i hguard
          rw [hit] at hguard
          simp at hguard
        · apply postPoint_ne_none
          exact hsane (by rw [hit]; rfl)
      · split
        · simp
        · exact firstFinish_ne_none _ (skipFwdLoad_some l hsane)

theorem nextPrefixSeek_ne_none (l : LevelIter) (succKey : Key)
    (hsane : l.iter.isSome = true → l.iterFile.isSome = true) :
    l.nextPrefixSeek succKey ≠ none := by
  obtain ⟨c, fs, hS⟩ := ffge_shape l succKey nextPrefixMetadataSeekFlags
  unfold LevelIter.nextPrefixSeek
  exact nextPrefixFinish_ne_none _ succKey
    (loadFile_some _ _ 1 (by rw [hS]; exact hsane))

theorem nextPrefix_ne_none (l : LevelIter) (succKey : Key)
    (hsane : l.iter.isSome = true → l.iterFile.isSome = true) :
    l.NextPrefix succKey ≠ none := by
  unfold LevelIter.NextPrefix
  split
  · simp
  · rcases hlb : l.largestBoundary with _ | b
    all_goals try dsimp only
    · rcases hit : l.iter with _ | it
      all_goals try dsimp only
      · rename_i hguard
        rw [hit] at hguard
        simp at hguard
      · split
        · simp
        · split
          · simp
          · apply nextPrefixSeek_ne_none
            intro _
            exact hsane (by rw [hit]; rfl)
    · split
      · simp
      · exact nextPrefixSeek_ne_none l succKey hsane

theorem prev_ne_none (l : LevelIter)
    (hsane : l.iter.isSome = true → l.iterFile.isSome = true) :
    l.Prev ≠ none := by
  unfold LevelIter.Prev
  split
  · rcases hup : l.upper with _ | u
    · exact last_ne_none l hsane
    · exact seekLT_ne_none l u seekLTFlagsNone hsane
  · split
    · simp
    · rcases hsb : l.smallestBoundary with _ | b
      all_goals try dsimp only
      · rcases hit : l.iter with _ | it
        all_goals try dsimp only
        · rename_i hguard
          rw [hit] at hguard
          simp at hguard
        · apply postPointBwd_ne_none
          exact hsane (by rw [hit]; rfl)
      · split
        · simp
        · exact lastFinish_ne_none _ (skipBwdLoad_some l hsane)

theorem skipFwdLoop_upper_pause (l : LevelIter) (it : InnerIter) (ub : Key) (fuel : Nat)
    (hit : l.iter = some it) (herr : it.err = none)
    (hreg : l.rangeDelRegistered = true) (hub : l.tableOptsUpper = some ub) :
    l.skipEmptyFileForwardLoop (fuel + 1) =
      (if l.rangeDelSlot.isSome then
        some ({ l with
                  exhaustedDir := 1
                  largestBoundary := some ⟨makeRangeDeleteSentinelKey ub⟩ },
              some ⟨makeRangeDeleteSentinelKey ub⟩)
       else some ({ l with exhaustedDir := 1 }, none)) := by
  rw [LevelIter.skipEmptyFileForwardLoop, hit]
  dsimp only
  rw [herr]
  simp only [Option.isSome_none, Bool.false_eq_true, if_false]
  rw [if_pos hreg, hub]
  dsimp only
  by_cases hslot : l.rangeDelSlot.isSome = true
  · rw [if_pos hslot, if_pos hslot]
    simp [LevelIter.makeSyntheticBoundary, LevelIter.emitSyntheticBoundaries, hreg, hslot]
  · rw [if_neg hslot, if_neg hslot]

/-- C1: in the forward skip-empty-file routine, on an exhausted error-free
inner iterator with a registered range-deletion slot and an effective
upper bound, the iterator sets exhaustedDir to +1 and either returns a
synthetic boundary at the upper-bound user key (when the slot holds a
live tombstone iterator) or returns nil directly (no tombstones in the
file); the cursor and the current file are left in place, so no advance
to the next file happens. -/
theorem skipEmptyFileForward_upper_bound_pause (l : LevelIter) (it : InnerIter) (ub : Key)
    (hit : l.iter = some it) (herr : it.err = none)
    (hreg : l.rangeDelRegistered = true) (hub : l.tableOptsUpper = some ub) :
    l.skipEmptyFileForward =
      (if l.rangeDelSlot.isSome then
        some ({ l with
                  exhaustedDir := 1
                  largestBoundary := some ⟨makeRangeDeleteSentinelKey ub⟩ },
              some ⟨makeRangeDeleteSentinelKey ub⟩)
       else some ({ l with exhaustedDir := 1 }, none)) := by
  have h4 : l.files.files.length + 4 = (l.files.files.length + 3) + 1 := rfl
  unfold LevelIter.skipEmptyFileForward
  rw [h4]
  exact skipFwdLoop_upper_pause l it ub _ hit herr hreg hub

/-- Witness for the C1 theorem: at c1State the pause emits the synthetic
boundary at the upper-bound user key b = [98]. -/
theorem skipEmptyFileForward_upper_bound_pause_witness :
    c1State.skipEmptyFileForward =
      some ({ c1State with
                exhaustedDir := 1
                largestBoundary := some ⟨makeRangeDeleteSentinelKey [98]⟩ },
            some ⟨makeRangeDeleteSentinelKey [98]⟩) := by
  have h := skipEmptyFileForward_upper_bound_pause c1State
    ⟨0, splitFull, [[97]], none, some [98], 5, none, none⟩ [98] rfl rfl rfl rfl
  rw [h]
  rw [if_pos (show c1State.rangeDelSlot.isSome = true from rfl)]

/-- C2: a synthetic boundary is constructed only under the emission
precondition (a registered slot holding a live tombstone iterator), and
with the documented state invariant that an open inner iterator implies a
current file, the assertion inside the boundary constructor is
unreachable from every operation: no operation's outcome is the panic
value. -/
theorem syntheticBoundary_guarded_no_panic (l : LevelIter) (pfx key succKey : Key)
    (gf : SeekGEFlags) (bf : SeekLTFlags)
    (hsane : l.iter.isSome = true → l.iterFile.isSome = true) :
    (∀ u, (l.makeSyntheticBoundary u).isSome = true →
       l.emitSyntheticBoundaries = true) ∧
    l.SeekGE key gf ≠ none ∧
    l.SeekPrefixGE pfx key gf ≠ none ∧
    l.SeekLT key bf ≠ none ∧
    l.First ≠ none ∧
    l.Last ≠ none ∧
    l.Next ≠ none ∧
    l.NextPrefix succKey ≠ none ∧
    l.Prev ≠ none := by
  refine ⟨?_, seekGE_ne_none l key gf hsane, seekPrefixGE_ne_none l pfx key gf hsane,
    seekLT_ne_none l key bf hsane, first_ne_none l hsane, last_ne_none l hsane,
    next_ne_none l hsane, nextPrefix_ne_none l succKey hsane, prev_ne_none l hsane⟩
  intro u hu
  by_cases he : l.emitSyntheticBoundaries = true
  · exact he
  · rw [Bool.not_eq_true] at he
    unfold LevelIter.makeSyntheticBoundary at hu
    rw [he] at hu
    simp at hu

/-- Witness for the C2 theorem at the fresh empty-level state. -/
theorem syntheticBoundary_guarded_no_panic_witness :
    (baseState []).Next ≠ none ∧ (baseState []).Prev ≠ none := by
  obtain ⟨-, -, -, -, -, -, h7, -, h9⟩ :=
    syntheticBoundary_guarded_no_panic (baseState []) [] [] [] seekGEFlagsNone
      seekLTFlagsNone (fun h => Bool.noConfusion h)
  exact ⟨h7, h9⟩

/-- C10: unlike Next, NextPrefix performs no direction reversal from an
exhausted state: whenever the sticky error is set or the inner iterator
is nil (as after backward exhaustion), NextPrefix returns nil immediately
with the state unchanged, whereas Next with exhaustedDir = -1 restarts
forward via SeekGE(lower) or First. -/
theorem nextPrefix_no_reversal (l : LevelIter) (succKey : Key)
    (h : l.err.isSome = true ∨ l.iter = none) :
    l.NextPrefix succKey = some (l, none) ∧
    (l.exhaustedDir = -1 →
      l.Next =
        match l.lower with
        | some lo => l.SeekGE lo seekGEFlagsNone
        | none => l.First) := by
  have hg : (l.err.isSome || l.iter.isNone) = true := by
    rcases h with h | h
    · simp [h]
    · simp [h]
  constructor
  · unfold LevelIter.NextPrefix
    rw [if_pos hg]
  · intro hex
    unfold LevelIter.Next
    rw [if_pos hex]

/-- Witness for the C10 theorem at the backward-exhausted fresh state. -/
theorem nextPrefix_no_reversal_witness :
    c7State.NextPrefix [107] = some (c7State, none) ∧ c7State.Next = c7State.First := by
  obtain ⟨h1, h2⟩ := nextPrefix_no_reversal c7State [107] (Or.inr rfl)
  exact ⟨h1, h2 rfl⟩

theorem firstError_none_left (b : Option GoErr) : firstError none b = b := rfl

theorem firstError_none_right (a : Option GoErr) : firstError a none = a := by
  cases a <;> rfl

/-- C8: closeOp closes the inner point iterator and the tombstone
iterator through the private copy, nulls the slot and the copy, and the
returned error composes the stored error and the two close errors under
first-error-wins (given the state invariant that a sticky error only
exists once the inner iterator is already closed); a second closeOp
returns the same error and extends the close log by nothing, so no inner
iterator is closed twice. -/
theorem close_first_error_idempotent (l : LevelIter)
    (hreg : l.rangeDelRegistered = true)
    (hok : l.err = none ∨ l.iter = none) :
    (l.closeOp).2 =
      firstError l.err
        (firstError
          (match l.iter with | some it => it.closeErr | none => none)
          (match l.rangeDelCopy with | some t => t.closeErr | none => none)) ∧
    (l.closeOp).1.iter = none ∧
    (l.closeOp).1.rangeDelSlot = none ∧
    (l.closeOp).1.rangeDelCopy = none ∧
    (l.closeOp).1.closeLog =
      (l.closeLog ++ (match l.iter with | some it => [it.iid] | none => [])) ++
        (match l.rangeDelCopy with | some t => [t.iid] | none => []) ∧
    ((l.closeOp).1.closeOp).2 = (l.closeOp).2 ∧
    ((l.closeOp).1.closeOp).1.closeLog = (l.closeOp).1.closeLog := by
  rcases hit : l.iter with _ | it
  · rcases hcp : l.rangeDelCopy with _ | t
    · simp [LevelIter.closeOp, hit, hcp, hreg, firstError_none_left, firstError_none_right]
    · simp [LevelIter.closeOp, hit, hcp, hreg, firstError_none_left, firstError_none_right]
  · have herr : l.err = none := by
      rcases hok with h | h
      · exact h
      · rw [h] at hit; exact Option.noConfusion hit
    rcases hcp : l.rangeDelCopy with _ | t
    · simp [LevelIter.closeOp, hit, hcp, hreg, herr, firstError_none_left,
        firstError_none_right]
    · simp [LevelIter.closeOp, hit, hcp, hreg, herr, firstError_none_left,
        firstError_none_right]

/-- Witness for the C8 theorem at c8State: the point close error 7 wins
over the tombstone close error 9, both iterators appear once in the
close log, and the second close returns the same error with the log
unchanged. -/
theorem close_first_error_idempotent_witness :
    (c8State.closeOp).2 = some 7 ∧
    (c8State.closeOp).1.closeLog = [0, 1] ∧
    ((c8State.closeOp).1.closeOp).2 = some 7 ∧
    ((c8State.closeOp).1.closeOp).1.closeLog = [0, 1] := by
  obtain ⟨h1, -, -, -, h5, h6, h7⟩ :=
    close_first_error_idempotent c8State rfl (Or.inl rfl)
  exact ⟨h1.trans rfl, h5.trans rfl, h6.trans (h1.trans rfl), h7.trans (h5.trans rfl)⟩

theorem loadFile_quick (l0 : LevelIter) (file : Option FileMeta) (dir : Int)
    (it : InnerIter) (hfile : l0.iterFile = file) (herr : l0.err = none)
    (hit : l0.iter = some it) (hreg : l0.rangeDelRegistered = true) :
    l0.loadFile file dir =
      (LevelIter.maybeTriggerCombinedIteration
        { l0 with
            smallestBoundary := none
            largestBoundary := none
            rangeDelSlot := l0.rangeDelCopy } file dir, .fileAlreadyLoaded) := by
  unfold LevelIter.loadFile
  rw [if_pos hfile]
  rw [if_neg (show ¬(l0.err.isSome = true) by simp [herr])]
  conv_lhs => rw [hit]
  dsimp only
  rw [if_pos hreg]
  rfl

/-- C9: a bounds-induced pause (Next stopped at an upper-bound synthetic
boundary) nulls the range-deletion slot but leaves the private copy, the
inner iterator, the current file and the open count unchanged; reloading
the same file afterwards (no error, inner iterator open) restores the
slot from the private copy, re-evaluates the combined trigger and
reports fileAlreadyLoaded without invoking the table opener. -/
theorem logical_close_preserves_copy_reload (l : LevelIter) (b : InternalKV) (f : FileMeta)
    (hexh : l.exhaustedDir ≠ -1) (herr : l.err = none) (hit : l.iter.isSome = true)
    (hlb : l.largestBoundary = some b) (htu : l.tableOptsUpper.isSome = true)
    (hreg : l.rangeDelRegistered = true) :
    l.Next = some ({ l with rangeDelSlot := none, exhaustedDir := 1 }, none) ∧
    (l.iterFile = some f →
      ∃ c, ({ l with rangeDelSlot := none, exhaustedDir := 1 } : LevelIter).loadFile
          (some f) 1 =
        ({ l with
             rangeDelSlot := l.rangeDelCopy
             exhaustedDir := 1
             smallestBoundary := none
             largestBoundary := none
             combined := c }, .fileAlreadyLoaded)) := by
  obtain ⟨itv, hitv⟩ := Option.isSome_iff_exists.mp hit
  constructor
  · unfold LevelIter.Next
    rw [if_neg hexh]
    rw [if_neg (show ¬((l.err.isSome || l.iter.isNone) = true) by simp [herr, hitv])]
    rw [hlb]
    dsimp only
    rw [if_pos htu, if_pos hreg]
  · intro hfile
    obtain ⟨c, hc⟩ := mtci_shape
      ({ l with
           smallestBoundary := none
           largestBoundary := none
           rangeDelSlot := l.rangeDelCopy
           exhaustedDir := 1 } : LevelIter) (some f) 1
    refine ⟨c, ?_⟩
    rw [loadFile_quick ({ l with rangeDelSlot := none, exhaustedDir := 1 } : LevelIter)
      (some f) 1 itv hfile herr hitv hreg]
    exact congrArg (fun s => (s, LoadFileReturnIndicator.fileAlreadyLoaded)) hc

/-- Witness for the C9 theorem at the paused state c9State. -/
theorem logical_close_preserves_copy_reload_witness :
    c9State.Next = some ({ c9State with rangeDelSlot := none, exhaustedDir := 1 }, none) ∧
    ∃ c, ({ c9State with rangeDelSlot := none, exhaustedDir := 1 } : LevelIter).loadFile
        (some (mkPointFile 0 [[97]])) 1 =
      ({ c9State with
           rangeDelSlot := c9State.rangeDelCopy
           exhaustedDir := 1
           smallestBoundary := none
           largestBoundary := none
           combined := c }, .fileAlreadyLoaded) := by
  obtain ⟨h1, h2⟩ := logical_close_preserves_copy_reload c9State
    ⟨makeRangeDeleteSentinelKey [98]⟩ (mkPointFile 0 [[97]]) (by decide) rfl rfl rfl rfl rfl
  exact ⟨h1, h2 rfl⟩

theorem loadFile_ffgeLog (l : LevelIter) (file : Option FileMeta) (dir : Int) :
    (l.loadFile file dir).1.ffgeLog = l.ffgeLog := by
  have hclose : ∀ (l1 : LevelIter),
      (LevelIter.loadFileClose l1 file dir).1.ffgeLog = l1.ffgeLog := by
    intro l1
    obtain ⟨a1, a2, a3, a4, a5, a6, a7, a8, a9, a10, a11, a12, hC, -⟩ :=
      loadFileClose_run l1 file dir
    rw [hC]
  unfold LevelIter.loadFile
  split
  · split
    · rfl
    · split
      · obtain ⟨c, hc⟩ := mtci_shape
          ((if l.rangeDelRegistered then
              { l.loadFileReset with rangeDelSlot := l.rangeDelCopy }
            else l.loadFileReset) : LevelIter) file dir
        dsimp only
        rw [hc]
        split <;> rfl
      · exact hclose _
  · exact hclose _

theorem skipFwdLoad_ffgeLog (l : LevelIter) :
    (l.skipFwdLoad).1.ffgeLog = l.ffgeLog :=
  loadFile_ffgeLog { l with files := (l.files.next).1 } ((l.files.next).2) 1

theorem skipFwdLoop_ffgeLog : ∀ (fuel : Nat) (l : LevelIter)
    (r : LevelIter × Option InternalKV),
    l.skipEmptyFileForwardLoop fuel = some r → r.1.ffgeLog = l.ffgeLog
  | 0, l, r, h => by
    rw [LevelIter.skipEmptyFileForwardLoop] at h
    injection h with h2
    subst h2
    rfl
  | fuel + 1, l, r, h => by
    rw [LevelIter.skipEmptyFileForwardLoop] at h
    rcases hit : l.iter with _ | it <;> rw [hit] at h <;> dsimp only at h
    · exact absurd h (by simp)
    · split at h
      · injection h with h2; subst h2; rfl
      · split at h
        · split at h
          · split at h
            · split at h
              · exact absurd h (by simp)
              · injection h with h2; subst h2; rfl
            · injection h with h2; subst h2; rfl
          · split at h
            · split at h
              · exact absurd h (by simp)
              · split at h
                · exact absurd h (by simp)
                · injection h with h2; subst h2; rfl
            · split at h
              · injection h with h2; subst h2; exact skipFwdLoad_ffgeLog l
              · split at h
                · exact absurd h (by simp)
                · split at h
                  · injection h with h2; subst h2; exact skipFwdLoad_ffgeLog l
                  · exact (skipFwdLoop_ffgeLog fuel _ r h).trans (skipFwdLoad_ffgeLog l)
        · split at h
          · injection h with h2; subst h2; exact skipFwdLoad_ffgeLog l
          · split at h
            · exact absurd h (by simp)
            · split at h
              · injection h with h2; subst h2; exact skipFwdLoad_ffgeLog l
              · exact (skipFwdLoop_ffgeLog fuel _ r h).trans (skipFwdLoad_ffgeLog l)

theorem postPoint_ffgeLog (l1 : LevelIter) (rr : InnerIter × Option InternalKV)
    (r : LevelIter × Option InternalKV) (h : LevelIter.postPoint l1 rr = some r) :
    r.1.ffgeLog = l1.ffgeLog := by
  unfold LevelIter.postPoint at h
  split at h
  · injection h with h2; subst h2; rfl
  · unfold LevelIter.skipEmptyFileForward at h
    exact skipFwdLoop_ffgeLog _ ({ l1 with iter := some rr.1 }) r h

theorem seekGEFinish_ffgeLog (rl : LevelIter × LoadFileReturnIndicator) (key : Key)
    (flags : SeekGEFlags) (r : LevelIter × Option InternalKV)
    (h : LevelIter.seekGEFinish rl key flags = some r) :
    r.1.ffgeLog = rl.1.ffgeLog := by
  unfold LevelIter.seekGEFinish at h
  split at h
  · injection h with h2; subst h2; rfl
  · split at h
    · exact absurd h (by simp)
    · exact postPoint_ffgeLog _ _ r h

theorem seekPrefixGEPost_ffgeLog (l1 : LevelIter) (pfx : Key)
    (rr : InnerIter × Option InternalKV) (r : LevelIter × Option InternalKV)
    (h : LevelIter.seekPrefixGEPost l1 pfx rr = some r) :
    r.1.ffgeLog = l1.ffgeLog := by
  unfold LevelIter.seekPrefixGEPost at h
  split at h
  · injection h with h2; subst h2; rfl
  · split at h
    · injection h with h2; subst h2; rfl
    · split at h
      · split at h
        · split at h
          · exact absurd h (by simp)
          · injection h with h2; subst h2; rfl
        · split at h
          · exact absurd h (by simp)
          · split at h
            · exact absurd h (by simp)
            · injection h with h2; subst h2; rfl
      · split at h
        · exact absurd h (by simp)
        · split at h
          · injection h with h2; subst h2; rfl
          · unfold LevelIter.skipEmptyFileForward at h
            exact skipFwdLoop_ffgeLog _ ({ l1 with iter := some rr.1 }) r h

theorem seekPrefixGEFinish_ffgeLog (rl : LevelIter × LoadFileReturnIndicator)
    (pfx key : Key) (flags : SeekGEFlags) (r : LevelIter × Option InternalKV)
    (h : LevelIter.seekPrefixGEFinish rl pfx key flags = some r) :
    r.1.ffgeLog = rl.1.ffgeLog := by
  unfold LevelIter.seekPrefixGEFinish at h
  split at h
  · injection h with h2; subst h2; rfl
  · split at h
    · exact absurd h (by simp)
    · exact seekPrefixGEPost_ffgeLog _ _ _ r h

theorem nextPrefixFinish_ffgeLog (rl : LevelIter × LoadFileReturnIndicator)
    (succKey : Key) (r : LevelIter × Option InternalKV)
    (h : LevelIter.nextPrefixFinish rl succKey = some r) :
    r.1.ffgeLog = rl.1.ffgeLog := by
  unfold LevelIter.nextPrefixFinish at h
  split at h
  · injection h with h2; subst h2; rfl
  · split at h
    · exact absurd h (by simp)
    · exact postPoint_ffgeLog _ _ r h

theorem seekGEPosition_ffgeLog (l : LevelIter) (key : Key) (flags : SeekGEFlags) :
    (l.seekGEPosition key flags).1.ffgeLog = l.ffgeLog ++ [flags] := by
  obtain ⟨c, fs, hS⟩ := ffge_shape l key flags
  unfold LevelIter.seekGEPosition
  rw [loadFile_ffgeLog, hS]

/-- C5 counterexample: NextPrefix's self-constructed metadata seek flags
enable TrySeekUsingNext and RelativeSeek together, and the concrete
NextPrefix run from c5State reaches findFileGE exactly once, logging
those combined flags — so the two hints are in fact both set in an
invocation made by the iterator's own operations. -/
theorem nextPrefix_both_hint_flags :
    nextPrefixMetadataSeekFlags.trySeekUsingNext = true ∧
    nextPrefixMetadataSeekFlags.relativeSeek = true ∧
    (c5State.NextPrefix [107, 50]).map (fun r => r.1.ffgeLog) =
      some [nextPrefixMetadataSeekFlags] := by
  refine ⟨rfl, rfl, ?_⟩
  rfl

/-- C5 (amended): SeekGE and SeekPrefixGE pass their caller-supplied
flags to findFileGE unchanged; the only flags the level iterator
constructs itself are NextPrefix's metadata seek flags, which
deliberately combine TrySeekUsingNext with RelativeSeek — the two hints
are not mutually exclusive. -/
theorem findFileGE_flags_provenance (l : LevelIter) (pfx key succKey : Key)
    (flags : SeekGEFlags) :
    (∀ r, l.SeekGE key flags = some r → r.1.ffgeLog = l.ffgeLog ++ [flags]) ∧
    (∀ r, l.SeekPrefixGE pfx key flags = some r →
       r.1.ffgeLog = l.ffgeLog ++ [flags]) ∧
    (∀ r, l.nextPrefixSeek succKey = some r →
       r.1.ffgeLog = l.ffgeLog ++ [nextPrefixMetadataSeekFlags]) ∧
    nextPrefixMetadataSeekFlags = { trySeekUsingNext := true, relativeSeek := true } := by
  refine ⟨?_, ?_, ?_, rfl⟩
  · intro r hr
    have h1 := seekGEFinish_ffgeLog _ key flags r hr
    rw [h1, seekGEPosition_ffgeLog]
  · intro r hr
    have h1 := seekPrefixGEFinish_ffgeLog _ pfx key flags r hr
    rw [h1, seekGEPosition_ffgeLog]
  · intro r hr
    unfold LevelIter.nextPrefixSeek at hr
    have h1 := nextPrefixFinish_ffgeLog _ succKey r hr
    rw [h1, loadFile_ffgeLog]
    obtain ⟨c, fs, hS⟩ := ffge_shape l succKey nextPrefixMetadataSeekFlags
    rw [hS]

/-- Witness for the C5 amended theorem: the metadata seek from c5State
logs exactly the combined flags. -/
theorem findFileGE_flags_provenance_witness :
    (c5State.nextPrefixSeek [107, 50]).map (fun r => r.1.ffgeLog) =
      some [nextPrefixMetadataSeekFlags] := by
  obtain ⟨-, -, h3, -⟩ :=
    findFileGE_flags_provenance c5State [] [] [107, 50] seekGEFlagsNone
  rcases hr : c5State.nextPrefixSeek [107, 50] with _ | r
  · exact absurd hr (nextPrefixSeek_ne_none c5State [107, 50] (fun _ => rfl))
  · rw [Option.map_some', h3 r hr]
    rfl

theorem ffgeLoop_budget : ∀ (fuel : Nat) (l : LevelIter) (key : Key) (m : Option FileMeta)
    (nios : Bool) (nus : Int) (steps : Nat) (fb : Bool),
    (nios = false → nus = 0) → 0 ≤ nus →
    steps ≤ (LevelIter.findFileGELoop l key m nios nus steps fb fuel).2.2.1 ∧
    ((LevelIter.findFileGELoop l key m nios nus steps fb fuel).2.2.1 : Int) ≤
      steps + nus ∧
    ((LevelIter.findFileGELoop l key m nios nus steps fb fuel).2.2.2 = true →
      fb = true ∨
        ((LevelIter.findFileGELoop l key m nios nus steps fb fuel).2.2.1 : Int) =
          steps + nus)
  | 0, l, key, m, nios, nus, steps, fb, hn, h0 => by
    rw [LevelIter.findFileGELoop]
    exact ⟨le_refl _, (by omega : (steps : Int) ≤ steps + nus), fun h => Or.inl h⟩
  | fuel + 1, l, key, m, nios, nus, steps, fb, hn, h0 => by
    rcases m with _ | mf
    · rw [LevelIter.findFileGELoop]
      dsimp only
      exact ⟨le_refl _, (by omega : (steps : Int) ≤ steps + nus), fun h => Or.inl h⟩
    · simp only [LevelIter.findFileGELoop]
      split
      · exact ffgeLoop_budget fuel _ key _ nios nus steps fb hn h0
      · split
        · split
          · rename_i hfbc
            have hnus : nus = 0 := by
              rcases Bool.and_eq_true _ _ |>.mp hfbc with ⟨-, hd⟩
              exact of_decide_eq_true hd
            have bridge : ∀ (l2 : LevelIter) (m2 : Option FileMeta),
                steps ≤
                  (LevelIter.findFileGELoop l2 key m2 false nus steps true fuel).2.2.1 ∧
                ((LevelIter.findFileGELoop l2 key m2 false nus steps true
                    fuel).2.2.1 : Int) ≤ steps + nus ∧
                ((LevelIter.findFileGELoop l2 key m2 false nus steps true
                    fuel).2.2.2 = true →
                  fb = true ∨
                    ((LevelIter.findFileGELoop l2 key m2 false nus steps true
                        fuel).2.2.1 : Int) = steps + nus) := by
              intro l2 m2
              obtain ⟨ha, hb, -⟩ :=
                ffgeLoop_budget fuel l2 key m2 false nus steps true (fun _ => hnus) h0
              exact ⟨ha, hb, fun _ => Or.inr (by omega)⟩
            exact bridge _ _
          · by_cases hpos : 0 < nus
            · simp only [if_pos hpos]
              have bridge : ∀ (l2 : LevelIter) (m2 : Option FileMeta),
                  steps ≤ (LevelIter.findFileGELoop l2 key m2 nios (nus - 1)
                    (steps + 1) fb fuel).2.2.1 ∧
                  ((LevelIter.findFileGELoop l2 key m2 nios (nus - 1) (steps + 1) fb
                      fuel).2.2.1 : Int) ≤ steps + nus ∧
                  ((LevelIter.findFileGELoop l2 key m2 nios (nus - 1) (steps + 1) fb
                      fuel).2.2.2 = true →
                    fb = true ∨
                      ((LevelIter.findFileGELoop l2 key m2 nios (nus - 1) (steps + 1)
                          fb fuel).2.2.1 : Int) = steps + nus) := by
                intro l2 m2
                obtain ⟨ha, hb, hc⟩ :=
                  ffgeLoop_budget fuel l2 key m2 nios (nus - 1) (steps + 1) fb
                    (fun hf => absurd (hn hf) (by omega)) (by omega)
                refine ⟨by omega, by omega, fun h => ?_⟩
                rcases hc h with h1 | h1
                · exact Or.inl h1
                · exact Or.inr (by omega)
              exact bridge _ _
            · simp only [if_neg hpos]
              exact ffgeLoop_budget fuel _ key _ nios nus steps fb hn h0
        · split
          · exact ffgeLoop_budget fuel _ key _ nios nus steps fb hn h0
          · exact ⟨le_refl _, (by omega : (steps : Int) ≤ steps + nus), fun h => Or.inl h⟩

/-- C4: invoked with only TrySeekUsingNext set, findFileGE starts from
the current file and performs at most 4 budget-counted forward steps of
the level cursor looking for a file whose largest point key is at or
past the search key; when it reports a fallback the budget was fully
spent (exactly 4 steps).  In scenario S4 — eight one-key files k1..k8,
iterator positioned at k2 — seeking k7 spends the whole budget, falls
back to the binary-search seek, and SeekGE still returns k7. -/
theorem findFileGE_trySeekUsingNext_budget (l : LevelIter) (key : Key) :
    (l.findFileGE key tsnFlags).2.2.1 ≤ 4 ∧
    ((l.findFileGE key tsnFlags).2.2.2 = true →
      (l.findFileGE key tsnFlags).2.2.1 = 4) ∧
    (s4State.findFileGE (kf 7) tsnFlags).2 = (some (mkPointFile 6 [kf 7]), 4, true) ∧
    (s4State.SeekGE (kf 7) tsnFlags).map (fun r => r.2) =
      some (some ⟨⟨kf 7, false⟩⟩) := by
  have heq : l.findFileGE key tsnFlags =
      LevelIter.findFileGELoop { l with ffgeLog := l.ffgeLog ++ [tsnFlags] } key
        l.iterFile true 4 0 false (2 * l.files.files.length + 8) := rfl
  obtain ⟨ha, hb, hc⟩ :=
    ffgeLoop_budget (2 * l.files.files.length + 8)
      ({ l with ffgeLog := l.ffgeLog ++ [tsnFlags] } : LevelIter) key l.iterFile true 4 0
      false (fun h => Bool.noConfusion h) (by omega)
  refine ⟨?_, ?_, by rfl, by rfl⟩
  · rw [heq]
    omega
  · intro h
    rw [heq] at h ⊢
    rcases hc h with h1 | h1
    · exact Bool.noConfusion h1
    · omega

theorem splitFull_mono : SplitMono splitFull := by
  intro a b hab
  show keyLt (b.take b.length) (a.take a.length) = false
  rw [List.take_length, List.take_length]
  exact keyLt_asymm a b hab

/-- C3: when SeekPrefixGE's inner seek returns nil with no error and no
synthetic boundary is emitted, the current file's largest point key
decides the outcome: if the sought prefix is strictly below that key's
split-off portion, the operation marks forward exhaustion and returns
nil without advancing — and, for a monotone split function on a level
whose later files lie past the current file's largest key, no later file
holds a key carrying that prefix; otherwise the operation skips forward
to the later files. -/
theorem seekPrefixGE_early_exit (l1 : LevelIter) (pfx : Key)
    (rr : InnerIter × Option InternalKV) (f : FileMeta)
    (hr : rr.2 = none) (herr : rr.1.err = none)
    (hemit : l1.emitSyntheticBoundaries = false)
    (hf : l1.iterFile = some f)
    (hmono : SplitMono l1.split)
    (hlater : ∀ k ∈ laterKeys l1, keyLt f.largestPointKey.userKey k = true) :
    (keyLt pfx (f.largestPointKey.userKey.take
        (l1.split f.largestPointKey.userKey)) = true →
      LevelIter.seekPrefixGEPost l1 pfx rr =
        some ({ l1 with iter := some rr.1, exhaustedDir := 1 }, none) ∧
      ∀ k ∈ laterKeys l1, k.take (l1.split k) ≠ pfx) ∧
    (keyLt pfx (f.largestPointKey.userKey.take
        (l1.split f.largestPointKey.userKey)) = false →
      LevelIter.seekPrefixGEPost l1 pfx rr =
        LevelIter.skipEmptyFileForward { l1 with iter := some rr.1 }) := by
  constructor
  · intro hlt
    constructor
    · unfold LevelIter.seekPrefixGEPost
      rw [hr]
      dsimp only
      rw [herr]
      simp only [Option.isSome_none, Bool.false_eq_true, if_false]
      rw [hemit]
      simp only [Bool.false_eq_true, if_false]
      rw [hf]
      dsimp only
      rw [if_pos hlt]
    · intro k hk heq
      have h2 := hmono f.largestPointKey.userKey k (hlater k hk)
      rw [heq] at h2
      rw [hlt] at h2
      exact Bool.noConfusion h2
  · intro hlt
    unfold LevelIter.seekPrefixGEPost
    rw [hr]
    dsimp only
    rw [herr]
    simp only [Option.isSome_none, Bool.false_eq_true, if_false]
    rw [hemit]
    simp only [Bool.false_eq_true, if_false]
    rw [hf]
    dsimp only
    rw [if_neg (by rw [hlt]; exact Bool.false_ne_true)]

/-- Witness for the C3 theorem at c3State with sought prefix x = [120]:
the early exit fires (largest key xz is past any x-prefixed key) and the
operation pauses exhausted-forward without advancing. -/
theorem seekPrefixGE_early_exit_witness :
    LevelIter.seekPrefixGEPost c3State [120] (c3Inner, none) =
      some ({ c3State with iter := some c3Inner, exhaustedDir := 1 }, none) := by
  obtain ⟨h1, -⟩ := seekPrefixGE_early_exit c3State [120] (c3Inner, none) c3File
    rfl rfl rfl rfl splitFull_mono (fun k hk => nomatch hk)
  exact (h1 (by decide)).1

theorem chain_min : ∀ (ks : List Key), ks.Chain' (fun a b => keyLt a b = true) →
    ∀ k ∈ ks, k = ks.headI ∨ keyLt ks.headI k = true
  | [], _, k, hk => absurd hk (List.not_mem_nil k)
  | [_], _, k, hk => by
    rw [List.mem_singleton] at hk
    exact Or.inl hk
  | k0 :: k1 :: ks, hch, k, hk => by
    rw [List.chain'_cons] at hch
    rcases List.mem_cons.mp hk with rfl | hk2
    · exact Or.inl rfl
    · rcases chain_min (k1 :: ks) hch.2 k hk2 with h | h
      · exact Or.inr (by rw [h]; exact hch.1)
      · exact Or.inr (keyLt_trans k0 k1 k hch.1 h)

theorem getLastD_mem : ∀ (ks : List Key), ks ≠ [] → ks.getLastD [] ∈ ks
  | [], h => absurd rfl h
  | [k0], _ => by simp
  | k0 :: k1 :: ks, _ => by
    have ih := getLastD_mem (k1 :: ks) (List.cons_ne_nil _ _)
    rw [List.getLastD_cons] at ih
    rw [List.getLastD_cons, List.getLastD_cons]
    exact List.mem_cons_of_mem k0 ih

theorem cleanLevel_lb : ∀ (fs : List FileMeta) (lb : Key),
    (∀ g ∈ fs, CleanFile g) →
    fs.Chain' (fun a b => keyLt (a.pointKeys.getLastD []) (b.pointKeys.headI) = true) →
    (∀ g gs2, fs = g :: gs2 → keyLt g.pointKeys.headI lb = false) →
    ∀ k ∈ levelKeys fs, keyLt k lb = false
  | [], _, _, _, _, k, hk => by simp [levelKeys] at hk
  | g :: gs, lb, hcf, hch, hlb, k, hk => by
    have hglb : keyLt g.pointKeys.headI lb = false := hlb g gs rfl
    obtain ⟨hne, hsorted, -, -, -, -, -, -, -, -, -⟩ := hcf g (List.mem_cons_self _ _)
    rw [levelKeys, List.map_cons, List.flatten_cons] at hk
    rcases List.mem_append.mp hk with hk1 | hk2
    · rcases chain_min g.pointKeys hsorted k hk1 with rfl | hlt
      · exact hglb
      · cases hkl : keyLt k lb
        · rfl
        · exact absurd (keyLt_trans _ _ _ hlt hkl) (by rw [hglb]; simp)
    · rcases gs with _ | ⟨g1, gs'⟩
      · simp at hk2
      · rw [List.chain'_cons] at hch
        refine cleanLevel_lb (g1 :: gs') lb
          (fun x hx => hcf x (List.mem_cons_of_mem _ hx)) hch.2 ?_ k hk2
        intro g2 gs2 he
        injection he with he1 he2
        subst he1
        have hlast := getLastD_mem g.pointKeys hne
        have hllb : keyLt (g.pointKeys.getLastD []) lb = false := by
          rcases chain_min g.pointKeys hsorted _ hlast with he | hlt2
          · rw [he]; exact hglb
          · cases hq : keyLt (g.pointKeys.getLastD []) lb
            · rfl
            · exact absurd (keyLt_trans _ _ _ hlt2 hq) (by rw [hglb]; simp)
        cases hq : keyLt g1.pointKeys.headI lb
        · rfl
        · exact absurd (keyLt_trans _ _ _ hch.1 hq) (by rw [hllb]; simp)

theorem itb_no_bounds (l : LevelIter) (f : FileMeta)
    (hlo : l.lower = none) (hup : l.upper = none) :
    l.initTableBounds f = ({ l with tableOptsLower := none, tableOptsUpper := none }, 0) := by
  unfold LevelIter.initTableBounds LevelIter.initTableBoundsUpper
  dsimp only
  rw [hlo, hup]

theorem loadFileLoop_clean (l : LevelIter) (f : FileMeta) (dir : Int) (fuel : Nat)
    (hpk : f.hasPointKeys = true) (hlo : l.lower = none) (hup : l.upper = none)
    (hoe : f.openErr = none) (hreg : l.rangeDelRegistered = false) :
    ∃ c, LevelIter.loadFileLoop l (some f) dir (fuel + 1) =
      ({ l with
           iterFile := some f
           combined := c
           tableOptsLower := none
           tableOptsUpper := none
           iter := some ⟨l.nextIid, l.split, f.pointKeys, none, none, -1, none,
             f.ptCloseErr⟩
           openCount := l.openCount + 1
           nextIid := l.nextIid + 2 }, .newFileLoaded) := by
  obtain ⟨c, hS⟩ := lfState_shape l f dir
  have hB : (l.lfState f dir).initTableBounds f =
      ({ l.lfState f dir with tableOptsLower := none, tableOptsUpper := none }, 0) := by
    refine itb_no_bounds _ f ?_ ?_
    · rw [hS]; exact hlo
    · rw [hS]; exact hup
  have hBB : l.lfBounds f dir =
      { l with
          iterFile := some f
          combined := c
          tableOptsLower := none
          tableOptsUpper := none } := by
    unfold LevelIter.lfBounds
    rw [hB]
    dsimp only
    rw [hS]
  refine ⟨c, ?_⟩
  rw [LevelIter.loadFileLoop]
  rw [if_neg (by rw [hpk]; simp)]
  rw [if_neg (by rw [hpk]; simp)]
  rw [if_neg (show ¬(((l.lfState f dir).initTableBounds f).2 = (-1 : Int)) by
    rw [hB]; dsimp only; decide)]
  rw [if_neg (show ¬(((l.lfState f dir).initTableBounds f).2 = (1 : Int)) by
    rw [hB]; dsimp only; decide)]
  rw [hBB]
  unfold LevelIter.lfOpen
  rw [hoe]
  dsimp only
  rw [if_neg (by
    rw [show ({ l with
          iterFile := some f
          combined := c
          tableOptsLower := none
          tableOptsUpper := none } : LevelIter).rangeDelRegistered =
        l.rangeDelRegistered from rfl, hreg]
    simp)]

theorem loadFile_fresh (l : LevelIter) (f : FileMeta) (dir : Int)
    (hitf : l.iterFile = none) (hit : l.iter = none) (herr : l.err = none)
    (hreg : l.rangeDelRegistered = false)
    (hlo : l.lower = none) (hup : l.upper = none)
    (hpk : f.hasPointKeys = true) (hoe : f.openErr = none) :
    ∃ c, l.loadFile (some f) dir =
      ({ l with
           smallestBoundary := none
           largestBoundary := none
           iterFile := some f
           combined := c
           tableOptsLower := none
           tableOptsUpper := none
           iter := some ⟨l.nextIid, l.split, f.pointKeys, none, none, -1, none,
             f.ptCloseErr⟩
           openCount := l.openCount + 1
           nextIid := l.nextIid + 2 }, .newFileLoaded) := by
  have hclose : (l.loadFileReset).closeOp = (l.loadFileReset, none) := by
    unfold LevelIter.closeOp
    rw [show (l.loadFileReset).iter = l.iter from rfl, hit]
    dsimp only
    rw [show (l.loadFileReset).rangeDelRegistered = l.rangeDelRegistered from rfl, hreg]
    simp only [Bool.false_eq_true, if_false]
    rw [show (l.loadFileReset).err = l.err from rfl, herr]
  obtain ⟨c, hL⟩ := loadFileLoop_clean l.loadFileReset f dir
    (2 * (l.loadFileReset).files.files.length + 7) hpk hlo hup hoe hreg
  refine ⟨c, ?_⟩
  unfold LevelIter.loadFile
  rw [if_neg (by rw [hitf]; simp)]
  unfold LevelIter.loadFileClose
  rw [hclose]
  dsimp only
  rw [show 2 * (l.loadFileReset).files.files.length + 8 =
    (2 * (l.loadFileReset).files.files.length + 7) + 1 from rfl]
  rw [hL]
  rfl

theorem getElem?_zero_headI : ∀ (ks : List Key), ks ≠ [] → ks[0]? = some ks.headI
  | [], h => absurd rfl h
  | _ :: _, _ => by simp [List.headI]

theorem firstFinish_new (l1 : LevelIter) (it : InnerIter) (hit : l1.iter = some it) :
    LevelIter.firstFinish (l1, .newFileLoaded) = LevelIter.postPoint l1 (it.first) := by
  unfold LevelIter.firstFinish
  rw [if_neg (show ¬(((l1, LoadFileReturnIndicator.newFileLoaded) :
      LevelIter × LoadFileReturnIndicator).2 = .noFileLoaded) from fun h => nomatch h)]
  dsimp only
  rw [hit]

theorem postPoint_first_clean (l1 : LevelIter) (iid : Nat) (sp : Key → Nat)
    (ks : List Key) (ce : Option GoErr) (hne : ks ≠ []) :
    LevelIter.postPoint l1 ((⟨iid, sp, ks, none, none, -1, none, ce⟩ : InnerIter).first) =
      some ({ l1 with iter := some ⟨iid, sp, ks, none, none, 0, none, ce⟩ },
        some ⟨⟨ks.headI, false⟩⟩) := by
  have hvis : (⟨iid, sp, ks, none, none, 0, none, ce⟩ : InnerIter).vis = ks :=
    List.filter_eq_self.mpr (fun a _ => rfl)
  have hfst : (⟨iid, sp, ks, none, none, -1, none, ce⟩ : InnerIter).first =
      ((⟨iid, sp, ks, none, none, 0, none, ce⟩ : InnerIter),
       some ⟨⟨ks.headI, false⟩⟩) := by
    unfold InnerIter.first
    rw [if_neg (show ¬((⟨iid, sp, ks, none, none, -1, none, ce⟩ :
        InnerIter).err.isSome = true) from fun h => nomatch h)]
    dsimp only
    unfold InnerIter.atPos
    rw [if_pos (show (0 : Int) ≤ (⟨iid, sp, ks, none, none, 0, none, ce⟩ :
        InnerIter).pos from le_refl 0)]
    rw [hvis]
    rw [show ((0 : Int).toNat) = 0 from rfl]
    rw [getElem?_zero_headI ks hne]
    rfl
  rw [hfst]
  unfold LevelIter.postPoint
  rfl

theorem First_clean (l : LevelIter) (f : FileMeta) (rest : List FileMeta) (p : Int)
    (hfs : l.files = ⟨f :: rest, p⟩)
    (hitf : l.iterFile = none) (hit : l.iter = none)
    (hreg : l.rangeDelRegistered = false)
    (hlo : l.lower = none) (hup : l.upper = none)
    (hpk : f.hasPointKeys = true) (hoe : f.openErr = none)
    (hne : f.pointKeys ≠ []) :
    (l.First).map (fun r => r.2) = some (some ⟨⟨f.pointKeys.headI, false⟩⟩) := by
  unfold LevelIter.First
  rw [hfs]
  rw [show ((⟨f :: rest, p⟩ : Cursor).first) =
    ((⟨f :: rest, (0 : Int)⟩ : Cursor), some f) by
      simp [Cursor.first, Cursor.current]]
  dsimp only
  obtain ⟨c, hLF⟩ := loadFile_fresh
    ({ l with
         err := none
         exhaustedDir := 0
         files := (⟨f :: rest, (0 : Int)⟩ : Cursor) } : LevelIter) f 1
    hitf hit rfl hreg hlo hup hpk hoe
  rw [hLF]
  rw [firstFinish_new _ _ rfl]
  rw [postPoint_first_clean _ _ _ _ _ hne]
  rfl

/-- C7: Next called with ExhaustedDir = -1 restarts forward iteration by
SeekGE(lower) when a lower bound is set and by First otherwise, and Prev
called with ExhaustedDir = +1 restarts backward by SeekLT(upper) when an
upper bound is set and by Last otherwise; on a clean level with no
bounds, the restarting First yields the smallest key of the level — the
head key of the first file — which no in-bounds key of the level lies
below. -/
theorem exhausted_reversal_restart (l : LevelIter) (f : FileMeta) (rest : List FileMeta) :
    (l.exhaustedDir = -1 →
      l.Next = match l.lower with
               | some lo => l.SeekGE lo seekGEFlagsNone
               | none => l.First) ∧
    (l.exhaustedDir = 1 →
      l.Prev = match l.upper with
               | some u => l.SeekLT u seekLTFlagsNone
               | none => l.Last) ∧
    (CleanLevel (f :: rest) →
      ((baseState (f :: rest)).First).map (fun r => r.2) =
        some (some ⟨⟨f.pointKeys.headI, false⟩⟩) ∧
      ∀ k ∈ inBoundsKeys (baseState (f :: rest)), keyLt k f.pointKeys.headI = false) := by
  refine ⟨?_, ?_, ?_⟩
  · intro hex
    unfold LevelIter.Next
    rw [if_pos hex]
  · intro hex
    unfold LevelIter.Prev
    rw [if_pos hex]
  · intro hclean
    obtain ⟨hcf, hch⟩ := hclean
    obtain ⟨hne, hsorted, -, -, -, -, hpk, -, hoe, -, -⟩ := hcf f (List.mem_cons_self _ _)
    constructor
    · exact First_clean (baseState (f :: rest)) f rest (-1) rfl rfl rfl rfl rfl rfl
        hpk hoe hne
    · intro k hk
      have hk2 : k ∈ levelKeys (f :: rest) := (List.mem_filter.mp hk).1
      exact cleanLevel_lb (f :: rest) f.pointKeys.headI hcf hch
        (fun g gs2 he => by
          injection he with he1 he2
          rw [← he1]
          exact keyLt_irrefl _) k hk2

/-- Witness for the C7 theorem: the backward-exhausted state reverses
into First, and on the one-file clean level the restart yields its only
key. -/
theorem exhausted_reversal_restart_witness :
    c7State.Next = c7State.First ∧
    ((baseState [mkPointFile 0 [[97]]]).First).map (fun r => r.2) =
      some (some ⟨⟨[97], false⟩⟩) := by
  obtain ⟨h1, -, h3⟩ := exhausted_reversal_restart c7State (mkPointFile 0 [[97]]) []
  have hclean : CleanLevel [mkPointFile 0 [[97]]] := by
    constructor
    · intro g hg
      rw [List.mem_singleton] at hg
      subst hg
      exact ⟨by decide, List.chain'_singleton _, rfl, rfl, rfl, rfl, rfl, rfl, rfl,
        rfl, rfl⟩
    · exact List.chain'_singleton _
  exact ⟨h1 rfl, (h3 hclean).1⟩

-- Congruence of the positioning pipeline in the combined-iteration state
-- and the seek-flags instrumentation: two runs whose states differ only in
-- the combined field and the ffgeLog field take the same branches
-- everywhere (no branch condition reads either field) and return the same
-- key-value outcome.  maybeTriggerCombinedIteration writes only combined,
-- so the difference is preserved, never propagated.

theorem keyLt_ge_trans (a b c : Key) (h1 : keyLt a b = false)
    (h2 : keyLt b c = false) : keyLt a c = false := by
  cases hac : keyLt a c
  · rfl
  · cases hba : keyLt b a
    · have hab := keyLt_conn a b h1 hba
      subst hab
      rw [hac] at h2
      exact h2
    · have h3 := keyLt_trans b a c hba hac
      rw [h3] at h2
      exact h2

theorem keyLt_lt_of_ge (a b c : Key) (h1 : keyLt a b = false)
    (h2 : keyLt a c = true) : keyLt b c = true := by
  cases hba : keyLt b a
  · have hab := keyLt_conn a b h1 hba
    rw [← hab]
    exact h2
  · exact keyLt_trans b a c hba h2

theorem chain_ge_head : ∀ (f0 : FileMeta) (fs : List FileMeta) (j : Nat)
    (g : FileMeta),
    List.Chain' (fun a b => keyLt b.largest.userKey a.largest.userKey = false)
      (f0 :: fs) →
    (f0 :: fs)[j]? = some g →
    keyLt g.largest.userKey f0.largest.userKey = false
  | f0, fs, 0, g, h, hg => by
    rw [List.getElem?_cons_zero] at hg
    injection hg with hg
    subst hg
    exact keyLt_irrefl _
  | f0, [], j + 1, g, h, hg => by
    rw [List.getElem?_cons_succ] at hg
    simp at hg
  | f0, f1 :: fs, j + 1, g, h, hg => by
    rw [List.getElem?_cons_succ] at hg
    have h01 := (List.chain'_cons.mp h).1
    have hrec := chain_ge_head f1 fs j g (List.chain'_cons.mp h).2 hg
    exact keyLt_ge_trans _ _ _ hrec h01

theorem chain_ge_all : ∀ (fs : List FileMeta) (j1 j2 : Nat) (g1 g2 : FileMeta),
    List.Chain' (fun a b => keyLt b.largest.userKey a.largest.userKey = false) fs →
    j1 ≤ j2 → fs[j1]? = some g1 → fs[j2]? = some g2 →
    keyLt g2.largest.userKey g1.largest.userKey = false
  | [], j1, j2, g1, g2, _, h12, h1, h2 => by simp at h1
  | f0 :: fs, 0, j2, g1, g2, h, h12, h1, h2 => by
    rw [List.getElem?_cons_zero] at h1
    injection h1 with h1
    subst h1
    exact chain_ge_head f0 fs j2 g2 h h2
  | f0 :: fs, j1 + 1, 0, g1, g2, h, h12, h1, h2 => by omega
  | f0 :: fs, j1 + 1, j2 + 1, g1, g2, h, h12, h1, h2 => by
    rw [List.getElem?_cons_succ] at h1
    rw [List.getElem?_cons_succ] at h2
    exact chain_ge_all fs j1 j2 g1 g2 h.tail (by omega) h1 h2

theorem findIdx_le_len : ∀ (p : FileMeta → Bool) (fs : List FileMeta),
    fs.findIdx p ≤ fs.length
  | p, [] => by simp
  | p, f0 :: fs => by
    rw [List.findIdx_cons]
    cases hp : p f0
    · simpa using Nat.succ_le_succ (findIdx_le_len p fs)
    · simp

theorem findIdx_prefix_false : ∀ (p : FileMeta → Bool) (fs : List FileMeta) (m : Nat)
    (g : FileMeta), m < fs.findIdx p → fs[m]? = some g → p g = false
  | p, [], m, g, hm, hg => by simp at hg
  | p, f0 :: fs, 0, g, hm, hg => by
    rw [List.getElem?_cons_zero] at hg
    injection hg with hg
    subst hg
    cases hp : p f0
    · rfl
    · rw [List.findIdx_cons, hp] at hm
      simp at hm
  | p, f0 :: fs, m + 1, g, hm, hg => by
    rw [List.getElem?_cons_succ] at hg
    cases hp : p f0
    · rw [List.findIdx_cons, hp] at hm
      exact findIdx_prefix_false p fs m g (by simpa using hm) hg
    · rw [List.findIdx_cons, hp] at hm
      simp at hm

theorem findIdxFrom_zero (p : FileMeta → Bool) (fs : List FileMeta) :
    findIdxFrom p fs 0 = fs.findIdx p := by
  unfold findIdxFrom
  rw [List.drop_zero]
  omega

theorem findIdxFrom_cons_succ (p : FileMeta → Bool) (f0 : FileMeta)
    (fs : List FileMeta) (j : Nat) :
    findIdxFrom p (f0 :: fs) (j + 1) = findIdxFrom p fs j + 1 := by
  unfold findIdxFrom
  rw [List.drop_succ_cons]
  omega

theorem findIdxFrom_stop : ∀ (p : FileMeta → Bool) (fs : List FileMeta) (j : Nat)
    (g : FileMeta), fs[j]? = some g → p g = true → findIdxFrom p fs j = j
  | p, [], j, g, hg, hp => by simp at hg
  | p, f0 :: fs, 0, g, hg, hp => by
    rw [List.getElem?_cons_zero] at hg
    injection hg with hg
    subst hg
    rw [findIdxFrom_zero, List.findIdx_cons, hp]
    rfl
  | p, f0 :: fs, j + 1, g, hg, hp => by
    rw [List.getElem?_cons_succ] at hg
    rw [findIdxFrom_cons_succ, findIdxFrom_stop p fs j g hg hp]

theorem findIdxFrom_step : ∀ (p : FileMeta → Bool) (fs : List FileMeta) (j : Nat)
    (g : FileMeta), fs[j]? = some g → p g = false →
    findIdxFrom p fs j = findIdxFrom p fs (j + 1)
  | p, [], j, g, hg, hp => by simp at hg
  | p, f0 :: fs, 0, g, hg, hp => by
    rw [List.getElem?_cons_zero] at hg
    injection hg with hg
    subst hg
    rw [findIdxFrom_zero, List.findIdx_cons, hp, findIdxFrom_cons_succ, findIdxFrom_zero]
    rfl
  | p, f0 :: fs, j + 1, g, hg, hp => by
    rw [List.getElem?_cons_succ] at hg
    rw [findIdxFrom_cons_succ, findIdxFrom_cons_succ, findIdxFrom_step p fs j g hg hp]

theorem findIdxFrom_nil (p : FileMeta → Bool) (fs : List FileMeta) (j : Nat)
    (h : fs.length ≤ j) : findIdxFrom p fs j = j := by
  unfold findIdxFrom
  rw [List.drop_eq_nil_of_le h, List.findIdx_nil]
  omega

theorem findIdxFrom_none_all : ∀ (k : Nat) (p : FileMeta → Bool) (fs : List FileMeta)
    (j : Nat), fs.length - j ≤ k → j ≤ fs.length →
    (∀ m g, j ≤ m → fs[m]? = some g → p g = false) →
    findIdxFrom p fs j = fs.length
  | 0, p, fs, j, hk, hle, hall => by
    have hje : j = fs.length := by omega
    subst hje
    exact findIdxFrom_nil p fs _ (le_refl _)
  | k + 1, p, fs, j, hk, hle, hall => by
    rcases hj : fs[j]? with _ | g
    · have hlj : fs.length ≤ j := List.getElem?_eq_none_iff.mp hj
      have hje : j = fs.length := by omega
      subst hje
      exact findIdxFrom_nil p fs _ (le_refl _)
    · have hjlt : j < fs.length := by
        obtain ⟨w, -⟩ := List.getElem?_eq_some_iff.mp hj
        exact w
      rw [findIdxFrom_step p fs j g hj (hall j g (le_refl _) hj)]
      exact findIdxFrom_none_all k p fs (j + 1) (by omega) (by omega)
        (fun m g2 hm hg2 => hall m g2 (by omega) hg2)

theorem findIdxFrom_exact : ∀ (k : Nat) (p : FileMeta → Bool) (fs : List FileMeta)
    (j t : Nat) (gt : FileMeta), t - j ≤ k → j ≤ t → fs[t]? = some gt →
    p gt = true →
    (∀ m g, j ≤ m → m < t → fs[m]? = some g → p g = false) →
    findIdxFrom p fs j = t
  | 0, p, fs, j, t, gt, hk, hjt, hgt, hpt, hpre => by
    have hje : j = t := by omega
    subst hje
    exact findIdxFrom_stop p fs _ gt hgt hpt
  | k + 1, p, fs, j, t, gt, hk, hjt, hgt, hpt, hpre => by
    by_cases hje : j = t
    · subst hje
      exact findIdxFrom_stop p fs _ gt hgt hpt
    · have hjlt : j < t := by omega
      have htlen : t < fs.length := by
        obtain ⟨w, -⟩ := List.getElem?_eq_some_iff.mp hgt
        exact w
      have hjlen : j < fs.length := by omega
      have hj2 : fs[j]? = some (fs[j]) := by
        rw [List.getElem?_eq_getElem hjlen]
      rw [findIdxFrom_step p fs j (fs[j]) hj2 (hpre j (fs[j]) (le_refl _) hjlt hj2)]
      exact findIdxFrom_exact k p fs (j + 1) t gt (by omega) (by omega) hgt hpt
        (fun m g hm hmt hg => hpre m g (by omega) hmt hg)

theorem ffgeStop_agree (key : Key) (fs : List FileMeta)
    (ha : ∀ g ∈ fs, g.hasRangeKeys = false → g.largest = g.largestPointKey)
    (hsorted : ∀ (j1 j2 : Nat) (g1 g2 : FileMeta), j1 ≤ j2 → fs[j1]? = some g1 →
       fs[j2]? = some g2 →
       keyLt g2.largest.userKey g1.largest.userKey = false) :
    ∀ m g, (fs.findIdx fun f => ! keyLt f.largest.userKey key) ≤ m →
      fs[m]? = some g → ffgeStopN key g = ffgeStopT key g := by
  intro m g hjm hg
  cases hrk : g.hasRangeKeys
  · have hmlt : m < fs.length := by
      obtain ⟨w, -⟩ := List.getElem?_eq_some_iff.mp hg
      exact w
    have hjlt : (fs.findIdx fun f => ! keyLt f.largest.userKey key) < fs.length := by
      omega
    have hpj := List.findIdx_getElem (w := hjlt)
    have hjge : keyLt (fs[fs.findIdx fun f =>
        ! keyLt f.largest.userKey key]).largest.userKey key = false := by
      simpa using hpj
    have hjsome : fs[fs.findIdx fun f => ! keyLt f.largest.userKey key]? =
        some (fs[fs.findIdx fun f => ! keyLt f.largest.userKey key]) := by
      rw [List.getElem?_eq_getElem hjlt]
    have hsort := hsorted _ m _ g hjm hjsome hg
    have hge : keyLt g.largest.userKey key = false := keyLt_ge_trans _ _ _ hsort hjge
    have hl := ha g (List.getElem?_mem hg) hrk
    have hlpk : keyLt g.largestPointKey.userKey key = false := by
      rw [← hl]
      exact hge
    simp [ffgeStopN, ffgeStopT, hrk, hlpk]
  · simp [ffgeStopN, ffgeStopT, hrk]

theorem ffgeStopT_false_of_lt (key : Key) (g : FileMeta)
    (hb : g.hasPointKeys = true →
      keyLt g.largest.userKey g.largestPointKey.userKey = false)
    (hc : g.hasPointKeys = true ∨ g.hasRangeKeys = true)
    (hlt : keyLt g.largest.userKey key = true) :
    ffgeStopT key g = false := by
  cases hpk : g.hasPointKeys
  · rcases hc with hc | hc
    · rw [hpk] at hc
      exact absurd hc (by simp)
    · simp [ffgeStopT, rangeKeyOnly, hc, hpk]
  · have hklt : keyLt g.largestPointKey.userKey key = true :=
      keyLt_lt_of_ge _ _ _ (hb hpk) hlt
    simp [ffgeStopT, hklt]

theorem mtci_cg (l : LevelIter) (c : Option CombinedState) (g : List SeekGEFlags)
    (file : Option FileMeta) (dir : Int) :
    LevelIter.maybeTriggerCombinedIteration { l with combined := c, ffgeLog := g }
        file dir =
      { l.maybeTriggerCombinedIteration file dir with
          combined := (LevelIter.maybeTriggerCombinedIteration
            { l with combined := c, ffgeLog := g } file dir).combined,
          ffgeLog := g } := by
  obtain ⟨cA, hA⟩ := mtci_shape { l with combined := c, ffgeLog := g } file dir
  obtain ⟨cB, hB⟩ := mtci_shape l file dir
  rw [hA, hB]

theorem itbUpper_cg (l : LevelIter) (c : Option CombinedState) (g : List SeekGEFlags)
    (f : FileMeta) :
    LevelIter.initTableBoundsUpper { l with combined := c, ffgeLog := g } f =
      ({ (l.initTableBoundsUpper f).1 with combined := c, ffgeLog := g },
       (l.initTableBoundsUpper f).2) := by
  unfold LevelIter.initTableBoundsUpper
  dsimp only
  repeat' split
  all_goals rfl

theorem itb_cg (l : LevelIter) (c : Option CombinedState) (g : List SeekGEFlags)
    (f : FileMeta) :
    LevelIter.initTableBounds { l with combined := c, ffgeLog := g } f =
      ({ (l.initTableBounds f).1 with combined := c, ffgeLog := g },
       (l.initTableBounds f).2) := by
  rcases hlo : l.lower with _ | lb <;> rcases hup : l.upper with _ | ub <;>
    simp only [LevelIter.initTableBounds, LevelIter.initTableBoundsUpper, hlo, hup] <;>
    (repeat' split) <;> rfl

theorem closeOp_cg (l : LevelIter) (c : Option CombinedState) (g : List SeekGEFlags) :
    LevelIter.closeOp { l with combined := c, ffgeLog := g } =
      ({ (l.closeOp).1 with combined := c, ffgeLog := g }, (l.closeOp).2) := by
  cases hit : l.iter <;> cases hreg : l.rangeDelRegistered <;>
    cases hcp : l.rangeDelCopy <;>
    simp [LevelIter.closeOp, hit, hreg, hcp]

theorem lfOpen_cg (l : LevelIter) (c : Option CombinedState) (g : List SeekGEFlags)
    (f : FileMeta) :
    LevelIter.lfOpen { l with combined := c, ffgeLog := g } f =
      ({ (l.lfOpen f).1 with
           combined := (LevelIter.lfOpen { l with combined := c, ffgeLog := g }
             f).1.combined,
           ffgeLog := g },
       (l.lfOpen f).2) := by
  cases hoe : f.openErr <;> cases hreg : l.rangeDelRegistered <;>
    cases hrd : f.hasRangeDels <;>
    simp [LevelIter.lfOpen, hoe, hreg, hrd]

theorem lfState_cg (l : LevelIter) (c : Option CombinedState) (g : List SeekGEFlags)
    (f : FileMeta) (dir : Int) :
    LevelIter.lfState { l with combined := c, ffgeLog := g } f dir =
      { l.lfState f dir with
          combined := (LevelIter.lfState { l with combined := c, ffgeLog := g }
            f dir).combined,
          ffgeLog := g } :=
  mtci_cg { l with iterFile := some f } c g (some f) dir

theorem lfBounds_cg (l : LevelIter) (c : Option CombinedState) (g : List SeekGEFlags)
    (f : FileMeta) (dir : Int) :
    LevelIter.lfBounds { l with combined := c, ffgeLog := g } f dir =
      { l.lfBounds f dir with
          combined := (LevelIter.lfBounds { l with combined := c, ffgeLog := g }
            f dir).combined,
          ffgeLog := g } := by
  unfold LevelIter.lfBounds
  rw [lfState_cg, itb_cg]

theorem loadFileLoop_cg : ∀ (fuel : Nat) (l : LevelIter) (c : Option CombinedState)
    (g : List SeekGEFlags) (file : Option FileMeta) (dir : Int),
    LevelIter.loadFileLoop { l with combined := c, ffgeLog := g } file dir fuel =
      ({ (LevelIter.loadFileLoop l file dir fuel).1 with
           combined := (LevelIter.loadFileLoop { l with combined := c, ffgeLog := g }
             file dir fuel).1.combined,
           ffgeLog := g },
       (LevelIter.loadFileLoop l file dir fuel).2)
  | 0, l, c, g, file, dir => by rcases file with _ | f <;> rfl
  | fuel + 1, l, c, g, none, dir => rfl
  | fuel + 1, l, c, g, some f, dir => by
    rw [LevelIter.loadFileLoop, LevelIter.loadFileLoop]
    rw [lfState_cg, lfBounds_cg, itb_cg]
    dsimp only
    split
    · exact loadFileLoop_cg fuel
        { l.lfState f dir with files := ((l.lfState f dir).files.next).1 }
        ((LevelIter.lfState { l with combined := c, ffgeLog := g } f dir).combined) g
        (((l.lfState f dir).files.next).2) dir
    · split
      · exact loadFileLoop_cg fuel
          { l.lfState f dir with files := ((l.lfState f dir).files.prev).1 }
          ((LevelIter.lfState { l with combined := c, ffgeLog := g } f dir).combined) g
          (((l.lfState f dir).files.prev).2) dir
      · split
        · split
          · rfl
          · exact loadFileLoop_cg fuel
              { l.lfBounds f dir with files := ((l.lfBounds f dir).files.next).1 }
              ((LevelIter.lfBounds { l with combined := c, ffgeLog := g } f dir).combined)
              g (((l.lfBounds f dir).files.next).2) dir
        · split
          · split
            · rfl
            · exact loadFileLoop_cg fuel
                { l.lfBounds f dir with files := ((l.lfBounds f dir).files.prev).1 }
                ((LevelIter.lfBounds { l with combined := c, ffgeLog := g } f dir).combined)
                g (((l.lfBounds f dir).files.prev).2) dir
          · exact lfOpen_cg (l.lfBounds f dir)
              ((LevelIter.lfBounds { l with combined := c, ffgeLog := g } f dir).combined)
              g f

theorem loadFileClose_cg (l : LevelIter) (c : Option CombinedState)
    (g : List SeekGEFlags) (file : Option FileMeta) (dir : Int) :
    LevelIter.loadFileClose { l with combined := c, ffgeLog := g } file dir =
      ({ (LevelIter.loadFileClose l file dir).1 with
           combined := (LevelIter.loadFileClose { l with combined := c, ffgeLog := g }
             file dir).1.combined,
           ffgeLog := g },
       (LevelIter.loadFileClose l file dir).2) := by
  unfold LevelIter.loadFileClose
  rw [closeOp_cg]
  dsimp only
  split
  · rfl
  · exact loadFileLoop_cg _ (l.closeOp).1 c g file dir

theorem loadFile_cg (l : LevelIter) (c : Option CombinedState) (g : List SeekGEFlags)
    (file : Option FileMeta) (dir : Int) :
    LevelIter.loadFile { l with combined := c, ffgeLog := g } file dir =
      ({ (l.loadFile file dir).1 with
           combined := (LevelIter.loadFile { l with combined := c, ffgeLog := g }
             file dir).1.combined,
           ffgeLog := g },
       (l.loadFile file dir).2) := by
  unfold LevelIter.loadFile
  dsimp only
  split
  · split
    · rfl
    · split
      · by_cases hreg : l.rangeDelRegistered = true
        · rw [if_pos hreg, if_pos hreg]
          exact congrArg (fun s => (s, LoadFileReturnIndicator.fileAlreadyLoaded))
            (mtci_cg { l.loadFileReset with rangeDelSlot := l.rangeDelCopy } c g file dir)
        · rw [if_neg hreg, if_neg hreg]
          exact congrArg (fun s => (s, LoadFileReturnIndicator.fileAlreadyLoaded))
            (mtci_cg l.loadFileReset c g file dir)
      · exact loadFileClose_cg l.loadFileReset c g file dir
  · exact loadFileClose_cg l.loadFileReset c g file dir

theorem skipFwdLoad_cg (l : LevelIter) (c : Option CombinedState)
    (g : List SeekGEFlags) :
    LevelIter.skipFwdLoad { l with combined := c, ffgeLog := g } =
      ({ (l.skipFwdLoad).1 with
           combined := (LevelIter.skipFwdLoad
             { l with combined := c, ffgeLog := g }).1.combined,
           ffgeLog := g },
       (l.skipFwdLoad).2) := by
  unfold LevelIter.skipFwdLoad
  dsimp only
  exact loadFile_cg { l with files := (l.files.next).1 } c g ((l.files.next).2) 1

theorem skipFwdLoop_cgv : ∀ (fuel : Nat) (l : LevelIter) (c : Option CombinedState)
    (g : List SeekGEFlags),
    (LevelIter.skipEmptyFileForwardLoop { l with combined := c, ffgeLog := g }
        fuel).map (fun r => r.2) =
      (l.skipEmptyFileForwardLoop fuel).map (fun r => r.2)
  | 0, l, c, g => rfl
  | fuel + 1, l, c, g => by
    rw [LevelIter.skipEmptyFileForwardLoop, LevelIter.skipEmptyFileForwardLoop]
    dsimp only
    rw [skipFwdLoad_cg]
    dsimp only
    rcases hit : l.iter with _ | it
    · rfl
    · dsimp only
      split
      · rfl
      · split
        · split
          · rename_i ub hub
            split
            · split
              · rename_i heq
                rw [show l.makeSyntheticBoundary ub = none from heq]
              · rename_i bkv heq
                rw [show l.makeSyntheticBoundary ub = some bkv from heq]
                rfl
            · rfl
          · split
            · split
              · rfl
              · rename_i f hf
                split
                · rename_i heq
                  rw [show l.makeSyntheticBoundary f.largestPointKey.userKey = none
                    from heq]
                · rename_i bkv heq
                  rw [show l.makeSyntheticBoundary f.largestPointKey.userKey = some bkv
                    from heq]
                  rfl
            · split
              · rfl
              · split
                · rfl
                · rename_i it2 heq2
                  split
                  · rfl
                  · exact skipFwdLoop_cgv fuel
                      { (l.skipFwdLoad).1 with iter := some (it2.first).1 }
                      ((LevelIter.skipFwdLoad
                        { l with combined := c, iter := some it, ffgeLog := g }).1.combined)
                      g
        · split
          · rfl
          · split
            · rfl
            · rename_i it2 heq2
              split
              · rfl
              · exact skipFwdLoop_cgv fuel
                  { (l.skipFwdLoad).1 with iter := some (it2.first).1 }
                  ((LevelIter.skipFwdLoad
                    { l with combined := c, iter := some it, ffgeLog := g }).1.combined)
                  g

theorem postPoint_cgv (l1 : LevelIter) (c : Option CombinedState)
    (g : List SeekGEFlags) (rr : InnerIter × Option InternalKV) :
    (LevelIter.postPoint { l1 with combined := c, ffgeLog := g } rr).map
        (fun r => r.2) =
      (LevelIter.postPoint l1 rr).map (fun r => r.2) := by
  unfold LevelIter.postPoint
  split
  · rfl
  · unfold LevelIter.skipEmptyFileForward
    dsimp only
    exact skipFwdLoop_cgv _ { l1 with iter := some rr.1 } c g

theorem seekGEFinish_cgv (L : LevelIter) (c : Option CombinedState)
    (ind : LoadFileReturnIndicator) (g : List SeekGEFlags) (key : Key)
    (flags : SeekGEFlags) :
    (LevelIter.seekGEFinish ({ L with combined := c, ffgeLog := g }, ind) key
        flags).map (fun r => r.2) =
      (LevelIter.seekGEFinish (L, ind) key flags).map (fun r => r.2) := by
  unfold LevelIter.seekGEFinish
  dsimp only
  split
  · rfl
  · rcases hi : L.iter with _ | it
    · rfl
    · dsimp only
      exact postPoint_cgv L c g _

-- The findFileGE walk over a general manifest-legal level: the cursor
-- seek and the TrySeekUsingNext forward walk land on the same file, the
-- one at ffgeStopIdx, with the combined-iteration state as the only
-- state difference beyond the landing cursor.

theorem ffgeLoop_walkN : ∀ (fuel : Nat) (fs : List FileMeta) (j : Nat)
    (l : LevelIter) (key : Key) (steps : Nat) (fb : Bool),
    l.files = ⟨fs, (j : Int)⟩ → j ≤ fs.length → fs.length + 1 - j ≤ fuel →
    LevelIter.findFileGELoop l key fs[j]? false 0 steps fb fuel =
      ({ l with
           combined := (LevelIter.findFileGELoop l key fs[j]? false 0 steps fb
             fuel).1.combined,
           files := ⟨fs, ((findIdxFrom (ffgeStopN key) fs j : Nat) : Int)⟩ },
       fs[findIdxFrom (ffgeStopN key) fs j]?,
       (LevelIter.findFileGELoop l key fs[j]? false 0 steps fb fuel).2.2.1,
       (LevelIter.findFileGELoop l key fs[j]? false 0 steps fb fuel).2.2.2)
  | 0, fs, j, l, key, steps, fb, hfiles, hile, hfuel => by omega
  | fuel + 1, fs, j, l, key, steps, fb, hfiles, hile, hfuel => by
    rcases hm : fs[j]? with _ | mf
    · have hje : j = fs.length := by
        have := List.getElem?_eq_none_iff.mp hm
        omega
      rw [LevelIter.findFileGELoop]
      rw [show findIdxFrom (ffgeStopN key) fs j = j from
        findIdxFrom_nil (ffgeStopN key) fs j (by omega)]
      rw [hm]
      rw [← hfiles]
    · have hjlt : j < fs.length := by
        obtain ⟨w, -⟩ := List.getElem?_eq_some_iff.mp hm
        exact w
      have hnext : l.files.next =
          ((⟨fs, (((j + 1 : Nat)) : Int)⟩ : Cursor), fs[j + 1]?) := by
        rw [hfiles]
        unfold Cursor.next Cursor.current
        dsimp only
        rw [show min ((j : Int) + 1) ((fs.length : Nat) : Int) =
          (((j + 1 : Nat)) : Int) by omega]
        rw [if_pos (by omega)]
        rw [show (((j + 1 : Nat) : Int)).toNat = j + 1 from Int.toNat_natCast _]
      rw [LevelIter.findFileGELoop]
      dsimp only
      obtain ⟨cM, hcM⟩ := mtci_shape l (some mf) 1
      by_cases hrk : mf.hasRangeKeys = true
      · rw [if_pos hrk, hcM]
        by_cases hpk : mf.hasPointKeys = true
        · rw [if_neg (show ¬((mf.hasRangeKeys && ! mf.hasPointKeys) = true) by
            simp [hrk, hpk])]
          by_cases hkl : keyLt mf.largestPointKey.userKey key = true
          · rw [if_pos (show ((mf.hasRangeKeys || false) &&
              keyLt mf.largestPointKey.userKey key) = true by simp [hrk, hkl])]
            rw [if_neg (show ¬((false && decide ((0 : Int) = 0)) = true) by simp)]
            rw [if_neg (show ¬((0 : Int) < 0) by omega)]
            rw [if_neg (show ¬((0 : Int) < 0) by omega)]
            dsimp only
            rw [hnext]
            dsimp only
            rw [show findIdxFrom (ffgeStopN key) fs j =
              findIdxFrom (ffgeStopN key) fs (j + 1) from
              findIdxFrom_step _ fs j mf hm (by simp [ffgeStopN, hrk, hkl])]
            exact ffgeLoop_walkN fuel fs (j + 1)
              { l with
                  combined := cM
                  files := (⟨fs, (((j + 1 : Nat)) : Int)⟩ : Cursor) }
              key steps fb rfl (by omega) (by omega)
          · have hklf : keyLt mf.largestPointKey.userKey key = false := by
              simpa using hkl
            rw [if_neg (show ¬(((mf.hasRangeKeys || false) &&
              keyLt mf.largestPointKey.userKey key) = true) by simp [hklf])]
            by_cases hsn : (mf.largestPointKey.sentinel &&
                decide (mf.largestPointKey.userKey = key)) = true
            · rw [if_pos hsn]
              dsimp only
              rw [hnext]
              dsimp only
              rw [show findIdxFrom (ffgeStopN key) fs j =
                findIdxFrom (ffgeStopN key) fs (j + 1) from
                findIdxFrom_step _ fs j mf hm
                  (by simp [ffgeStopN, ffgeSentinelSkip, hsn])]
              exact ffgeLoop_walkN fuel fs (j + 1)
                { l with
                    combined := cM
                    files := (⟨fs, (((j + 1 : Nat)) : Int)⟩ : Cursor) }
                key steps fb rfl (by omega) (by omega)
            · have hsnf : (mf.largestPointKey.sentinel &&
                  decide (mf.largestPointKey.userKey = key)) = false := by
                simpa using hsn
              rw [if_neg hsn]
              rw [show findIdxFrom (ffgeStopN key) fs j = j from
                findIdxFrom_stop _ fs j mf hm
                  (by simp [ffgeStopN, rangeKeyOnly, ffgeSentinelSkip, hrk, hpk,
                    hklf, hsnf])]
              rw [hm]
              rw [← hfiles]
        · have hpkf : mf.hasPointKeys = false := by simpa using hpk
          rw [if_pos (show (mf.hasRangeKeys && ! mf.hasPointKeys) = true by
            simp [hrk, hpkf])]
          dsimp only
          rw [hnext]
          dsimp only
          rw [show findIdxFrom (ffgeStopN key) fs j =
            findIdxFrom (ffgeStopN key) fs (j + 1) from
            findIdxFrom_step _ fs j mf hm
              (by simp [ffgeStopN, rangeKeyOnly, hrk, hpkf])]
          exact ffgeLoop_walkN fuel fs (j + 1)
            { l with
                combined := cM
                files := (⟨fs, (((j + 1 : Nat)) : Int)⟩ : Cursor) }
            key steps fb rfl (by omega) (by omega)
      · have hrkf : mf.hasRangeKeys = false := by simpa using hrk
        rw [if_neg hrk]
        rw [if_neg (show ¬((mf.hasRangeKeys && ! mf.hasPointKeys) = true) by
          simp [hrkf])]
        rw [if_neg (show ¬(((mf.hasRangeKeys || false) &&
          keyLt mf.largestPointKey.userKey key) = true) by simp [hrkf])]
        by_cases hsn : (mf.largestPointKey.sentinel &&
            decide (mf.largestPointKey.userKey = key)) = true
        · rw [if_pos hsn]
          rw [hnext]
          dsimp only
          rw [show findIdxFrom (ffgeStopN key) fs j =
            findIdxFrom (ffgeStopN key) fs (j + 1) from
            findIdxFrom_step _ fs j mf hm
              (by simp [ffgeStopN, ffgeSentinelSkip, hsn])]
          exact ffgeLoop_walkN fuel fs (j + 1)
            { l with files := (⟨fs, (((j + 1 : Nat)) : Int)⟩ : Cursor) }
            key steps fb rfl (by omega) (by omega)
        · have hsnf : (mf.largestPointKey.sentinel &&
              decide (mf.largestPointKey.userKey = key)) = false := by
            simpa using hsn
          rw [if_neg hsn]
          rw [show findIdxFrom (ffgeStopN key) fs j = j from
            findIdxFrom_stop _ fs j mf hm
              (by simp [ffgeStopN, rangeKeyOnly, ffgeSentinelSkip, hrkf, hsnf])]
          rw [hm]
          rw [← hfiles]

theorem ffgeLoop_walkT : ∀ (fuel : Nat) (fs : List FileMeta) (i : Nat)
    (l : LevelIter) (key : Key) (nus : Int) (steps : Nat) (fb : Bool),
    l.files = ⟨fs, (i : Int)⟩ → i ≤ fs.length → 0 ≤ nus →
    (∀ g ∈ fs, g.hasRangeKeys = false → g.largest = g.largestPointKey) →
    (∀ g ∈ fs, g.hasPointKeys = true →
       keyLt g.largest.userKey g.largestPointKey.userKey = false) →
    (∀ g ∈ fs, g.hasPointKeys = true ∨ g.hasRangeKeys = true) →
    (∀ (j1 j2 : Nat) (g1 g2 : FileMeta), j1 ≤ j2 → fs[j1]? = some g1 →
       fs[j2]? = some g2 →
       keyLt g2.largest.userKey g1.largest.userKey = false) →
    (∀ m g, m < i → fs[m]? = some g → ffgeStopT key g = false) →
    2 * fs.length + 4 - i ≤ fuel →
    LevelIter.findFileGELoop l key fs[i]? true nus steps fb fuel =
      ({ l with
           combined := (LevelIter.findFileGELoop l key fs[i]? true nus steps fb
             fuel).1.combined,
           files := ⟨fs, ((ffgeStopIdx key fs : Nat) : Int)⟩ },
       fs[ffgeStopIdx key fs]?,
       (LevelIter.findFileGELoop l key fs[i]? true nus steps fb fuel).2.2.1,
       (LevelIter.findFileGELoop l key fs[i]? true nus steps fb fuel).2.2.2)
  | 0, fs, i, l, key, nus, steps, fb, hfiles, hile, hnn, ha, hb, hc, hsorted,
      hfail, hfuel => by omega
  | fuel + 1, fs, i, l, key, nus, steps, fb, hfiles, hile, hnn, ha, hb, hc, hsorted,
      hfail, hfuel => by
    rcases hm : fs[i]? with _ | mf
    · have hie : i = fs.length := by
        have := List.getElem?_eq_none_iff.mp hm
        omega
      have hagree := ffgeStop_agree key fs ha hsorted
      have hidx : ffgeStopIdx key fs = fs.length := by
        unfold ffgeStopIdx
        refine findIdxFrom_none_all fs.length (ffgeStopN key) fs _ (by omega)
          (findIdx_le_len _ fs) ?_
        intro m g hjm hg
        have hmlt : m < fs.length := by
          obtain ⟨w, -⟩ := List.getElem?_eq_some_iff.mp hg
          exact w
        rw [hagree m g hjm hg]
        exact hfail m g (by omega) hg
      rw [LevelIter.findFileGELoop]
      rw [hidx]
      rw [show fs[fs.length]? = (none : Option FileMeta) from
        List.getElem?_eq_none (le_refl _)]
      rw [hie] at hfiles
      rw [← hfiles]
    · have hilt : i < fs.length := by
        obtain ⟨w, -⟩ := List.getElem?_eq_some_iff.mp hm
        exact w
      have hmem : mf ∈ fs := List.getElem?_mem hm
      have hnext : l.files.next =
          ((⟨fs, (((i + 1 : Nat)) : Int)⟩ : Cursor), fs[i + 1]?) := by
        rw [hfiles]
        unfold Cursor.next Cursor.current
        dsimp only
        rw [show min ((i : Int) + 1) ((fs.length : Nat) : Int) =
          (((i + 1 : Nat)) : Int) by omega]
        rw [if_pos (by omega)]
        rw [show (((i + 1 : Nat) : Int)).toNat = i + 1 from Int.toNat_natCast _]
      have hseek : l.files.seekGE key =
          ((⟨fs, ((fs.findIdx fun f => ! keyLt f.largest.userKey key : Nat) : Int)⟩ :
              Cursor),
           fs[fs.findIdx fun f => ! keyLt f.largest.userKey key]?) := by
        rw [hfiles]
        simp [Cursor.seekGE, Cursor.current]
      rw [LevelIter.findFileGELoop]
      dsimp only
      obtain ⟨cM, hcM⟩ := mtci_shape l (some mf) 1
      by_cases hrk : mf.hasRangeKeys = true
      · rw [if_pos hrk, hcM]
        by_cases hpk : mf.hasPointKeys = true
        · rw [if_neg (show ¬((mf.hasRangeKeys && ! mf.hasPointKeys) = true) by
            simp [hrk, hpk])]
          by_cases hkl : keyLt mf.largestPointKey.userKey key = true
          · rw [if_pos (show ((mf.hasRangeKeys || true) &&
              keyLt mf.largestPointKey.userKey key) = true by simp [hkl])]
            by_cases hz : (true && decide (nus = 0)) = true
            · rw [if_pos hz]
              have hnus0 : nus = 0 := by simpa using hz
              subst hnus0
              dsimp only
              rw [hseek]
              dsimp only
              exact ffgeLoop_walkN fuel fs
                (fs.findIdx fun f => ! keyLt f.largest.userKey key)
                { l with
                    combined := cM
                    files := (⟨fs, ((fs.findIdx fun f =>
                      ! keyLt f.largest.userKey key : Nat) : Int)⟩ : Cursor) }
                key steps true rfl (findIdx_le_len _ fs) (by omega)
            · rw [if_neg hz]
              dsimp only
              rw [hnext]
              dsimp only
              exact ffgeLoop_walkT fuel fs (i + 1)
                { l with
                    combined := cM
                    files := (⟨fs, (((i + 1 : Nat)) : Int)⟩ : Cursor) }
                key (if (0 : Int) < nus then nus - 1 else nus)
                (if (0 : Int) < nus then steps + 1 else steps) fb rfl (by omega)
                (by split <;> omega) ha hb hc hsorted
                (fun m g hmi hg => by
                  rcases Nat.lt_succ_iff_lt_or_eq.mp hmi with hmi2 | hmi2
                  · exact hfail m g hmi2 hg
                  · subst hmi2
                    rw [hm] at hg
                    injection hg with hg
                    subst hg
                    simp [ffgeStopT, hkl])
                (by omega)
          · have hklf : keyLt mf.largestPointKey.userKey key = false := by
              simpa using hkl
            rw [if_neg (show ¬(((mf.hasRangeKeys || true) &&
              keyLt mf.largestPointKey.userKey key) = true) by simp [hklf])]
            by_cases hsn : (mf.largestPointKey.sentinel &&
                decide (mf.largestPointKey.userKey = key)) = true
            · rw [if_pos hsn]
              dsimp only
              rw [hnext]
              dsimp only
              exact ffgeLoop_walkT fuel fs (i + 1)
                { l with
                    combined := cM
                    files := (⟨fs, (((i + 1 : Nat)) : Int)⟩ : Cursor) }
                key nus steps fb rfl (by omega) hnn ha hb hc hsorted
                (fun m g hmi hg => by
                  rcases Nat.lt_succ_iff_lt_or_eq.mp hmi with hmi2 | hmi2
                  · exact hfail m g hmi2 hg
                  · subst hmi2
                    rw [hm] at hg
                    injection hg with hg
                    subst hg
                    simp [ffgeStopT, ffgeSentinelSkip, hsn])
                (by omega)
            · have hsnf : (mf.largestPointKey.sentinel &&
                  decide (mf.largestPointKey.userKey = key)) = false := by
                simpa using hsn
              rw [if_neg hsn]
              have hstopT : ffgeStopT key mf = true := by
                simp [ffgeStopT, rangeKeyOnly, ffgeSentinelSkip, hrk, hpk, hklf, hsnf]
              have hagree := ffgeStop_agree key fs ha hsorted
              have hjle : (fs.findIdx fun f => ! keyLt f.largest.userKey key) ≤ i := by
                by_contra hgt
                have higt : i < fs.findIdx fun f => ! keyLt f.largest.userKey key := by
                  omega
                have hpf := findIdx_prefix_false
                  (fun f => ! keyLt f.largest.userKey key) fs i mf higt hm
                have hlt2 : keyLt mf.largest.userKey key = true := by
                  simpa using hpf
                have hcontra := ffgeStopT_false_of_lt key mf (hb mf hmem) (hc mf hmem)
                  hlt2
                rw [hcontra] at hstopT
                exact absurd hstopT (by simp)
              have hidx : ffgeStopIdx key fs = i := by
                unfold ffgeStopIdx
                refine findIdxFrom_exact i (ffgeStopN key) fs _ i mf (by omega) hjle
                  hm ?_ ?_
                · rw [hagree i mf hjle hm]
                  exact hstopT
                · intro m g hJm hmi hg
                  rw [hagree m g hJm hg]
                  exact hfail m g hmi hg
              rw [hidx]
              rw [hm]
              rw [← hfiles]
        · have hpkf : mf.hasPointKeys = false := by simpa using hpk
          rw [if_pos (show (mf.hasRangeKeys && ! mf.hasPointKeys) = true by
            simp [hrk, hpkf])]
          dsimp only
          rw [hnext]
          dsimp only
          exact ffgeLoop_walkT fuel fs (i + 1)
            { l with
                combined := cM
                files := (⟨fs, (((i + 1 : Nat)) : Int)⟩ : Cursor) }
            key nus steps fb rfl (by omega) hnn ha hb hc hsorted
            (fun m g hmi hg => by
              rcases Nat.lt_succ_iff_lt_or_eq.mp hmi with hmi2 | hmi2
              · exact hfail m g hmi2 hg
              · subst hmi2
                rw [hm] at hg
                injection hg with hg
                subst hg
                simp [ffgeStopT, rangeKeyOnly, hrk, hpkf])
            (by omega)
      · have hrkf : mf.hasRangeKeys = false := by simpa using hrk
        rw [if_neg hrk]
        rw [if_neg (show ¬((mf.hasRangeKeys && ! mf.hasPointKeys) = true) by
          simp [hrkf])]
        by_cases hkl : keyLt mf.largestPointKey.userKey key = true
        · rw [if_pos (show ((mf.hasRangeKeys || true) &&
            keyLt mf.largestPointKey.userKey key) = true by simp [hkl])]
          by_cases hz : (true && decide (nus = 0)) = true
          · rw [if_pos hz]
            have hnus0 : nus = 0 := by simpa using hz
            subst hnus0
            rw [hseek]
            dsimp only
            exact ffgeLoop_walkN fuel fs
              (fs.findIdx fun f => ! keyLt f.largest.userKey key)
              { l with files := (⟨fs, ((fs.findIdx fun f =>
                  ! keyLt f.largest.userKey key : Nat) : Int)⟩ : Cursor) }
              key steps true rfl (findIdx_le_len _ fs) (by omega)
          · rw [if_neg hz]
            rw [hnext]
            dsimp only
            exact ffgeLoop_walkT fuel fs (i + 1)
              { l with files := (⟨fs, (((i + 1 : Nat)) : Int)⟩ : Cursor) }
              key (if (0 : Int) < nus then nus - 1 else nus)
              (if (0 : Int) < nus then steps + 1 else steps) fb rfl (by omega)
              (by split <;> omega) ha hb hc hsorted
              (fun m g hmi hg => by
                rcases Nat.lt_succ_iff_lt_or_eq.mp hmi with hmi2 | hmi2
                · exact hfail m g hmi2 hg
                · subst hmi2
                  rw [hm] at hg
                  injection hg with hg
                  subst hg
                  simp [ffgeStopT, hkl])
              (by omega)
        · have hklf : keyLt mf.largestPointKey.userKey key = false := by
            simpa using hkl
          rw [if_neg (show ¬(((mf.hasRangeKeys || true) &&
            keyLt mf.largestPointKey.userKey key) = true) by simp [hklf])]
          by_cases hsn : (mf.largestPointKey.sentinel &&
              decide (mf.largestPointKey.userKey = key)) = true
          · rw [if_pos hsn]
            rw [hnext]
            dsimp only
            exact ffgeLoop_walkT fuel fs (i + 1)
              { l with files := (⟨fs, (((i + 1 : Nat)) : Int)⟩ : Cursor) }
              key nus steps fb rfl (by omega) hnn ha hb hc hsorted
              (fun m g hmi hg => by
                rcases Nat.lt_succ_iff_lt_or_eq.mp hmi with hmi2 | hmi2
                · exact hfail m g hmi2 hg
                · subst hmi2
                  rw [hm] at hg
                  injection hg with hg
                  subst hg
                  simp [ffgeStopT, ffgeSentinelSkip, hsn])
              (by omega)
          · have hsnf : (mf.largestPointKey.sentinel &&
                decide (mf.largestPointKey.userKey = key)) = false := by
              simpa using hsn
            rw [if_neg hsn]
            have hstopT : ffgeStopT key mf = true := by
              simp [ffgeStopT, rangeKeyOnly, ffgeSentinelSkip, hrkf, hklf, hsnf]
            have hagree := ffgeStop_agree key fs ha hsorted
            have hjle : (fs.findIdx fun f => ! keyLt f.largest.userKey key) ≤ i := by
              by_contra hgt
              have higt : i < fs.findIdx fun f => ! keyLt f.largest.userKey key := by
                omega
              have hpf := findIdx_prefix_false
                (fun f => ! keyLt f.largest.userKey key) fs i mf higt hm
              have hlt2 : keyLt mf.largest.userKey key = true := by
                simpa using hpf
              have hcontra := ffgeStopT_false_of_lt key mf (hb mf hmem) (hc mf hmem)
                hlt2
              rw [hcontra] at hstopT
              exact absurd hstopT (by simp)
            have hidx : ffgeStopIdx key fs = i := by
              unfold ffgeStopIdx
              refine findIdxFrom_exact i (ffgeStopN key) fs _ i mf (by omega) hjle
                hm ?_ ?_
              · rw [hagree i mf hjle hm]
                exact hstopT
              · intro m g hJm hmi hg
                rw [hagree m g hJm hg]
                exact hfail m g hmi hg
            rw [hidx]
            rw [hm]
            rw [← hfiles]

theorem ffge_tsn_equiv (l : LevelIter) (key : Key) (fs : List FileMeta) (i : Nat)
    (hfiles : l.files = ⟨fs, (i : Int)⟩)
    (hitf : l.iterFile = fs[i]?)
    (hile : i ≤ fs.length)
    (ha : ∀ g ∈ fs, g.hasRangeKeys = false → g.largest = g.largestPointKey)
    (hb : ∀ g ∈ fs, g.hasPointKeys = true →
       keyLt g.largest.userKey g.largestPointKey.userKey = false)
    (hc : ∀ g ∈ fs, g.hasPointKeys = true ∨ g.hasRangeKeys = true)
    (hsorted : ∀ (j1 j2 : Nat) (g1 g2 : FileMeta), j1 ≤ j2 → fs[j1]? = some g1 →
       fs[j2]? = some g2 →
       keyLt g2.largest.userKey g1.largest.userKey = false)
    (hprev : ∀ j g, j < i → fs[j]? = some g → keyLt g.largest.userKey key = true) :
    l.findFileGE key tsnFlags =
      ({ ({ l with files := ⟨fs, ((ffgeStopIdx key fs : Nat) : Int)⟩ } : LevelIter)
          with
           combined := (l.findFileGE key tsnFlags).1.combined,
           ffgeLog := l.ffgeLog ++ [tsnFlags] },
       fs[ffgeStopIdx key fs]?,
       (l.findFileGE key tsnFlags).2.2.1, (l.findFileGE key tsnFlags).2.2.2) ∧
    l.findFileGE key seekGEFlagsNone =
      ({ ({ l with files := ⟨fs, ((ffgeStopIdx key fs : Nat) : Int)⟩ } : LevelIter)
          with
           combined := (l.findFileGE key seekGEFlagsNone).1.combined,
           ffgeLog := l.ffgeLog ++ [seekGEFlagsNone] },
       fs[ffgeStopIdx key fs]?,
       (l.findFileGE key seekGEFlagsNone).2.2.1,
       (l.findFileGE key seekGEFlagsNone).2.2.2) := by
  have hfail : ∀ m g, m < i → fs[m]? = some g → ffgeStopT key g = false := by
    intro m g hmi hg
    exact ffgeStopT_false_of_lt key g (hb g (List.getElem?_mem hg))
      (hc g (List.getElem?_mem hg)) (hprev m g hmi hg)
  have hlen : l.files.files = fs := by rw [hfiles]
  constructor
  · have heqt : l.findFileGE key tsnFlags =
        LevelIter.findFileGELoop { l with ffgeLog := l.ffgeLog ++ [tsnFlags] } key
          l.iterFile true 4 0 false (2 * l.files.files.length + 8) := rfl
    rw [heqt]
    have hT := ffgeLoop_walkT (2 * l.files.files.length + 8) fs i
      ({ l with ffgeLog := l.ffgeLog ++ [tsnFlags] } : LevelIter) key 4 0 false hfiles
      hile (by omega) ha hb hc hsorted hfail (by rw [hlen]; omega)
    rw [← hitf] at hT
    exact hT
  · have heqn : l.findFileGE key seekGEFlagsNone =
        LevelIter.findFileGELoop
          { l with
              ffgeLog := l.ffgeLog ++ [seekGEFlagsNone]
              files := (l.files.seekGE key).1 } key
          ((l.files.seekGE key).2) false 0 0 false
          (2 * ((l.files.seekGE key).1).files.length + 8) := rfl
    have hseek : l.files.seekGE key =
        ((⟨fs, ((fs.findIdx fun f => ! keyLt f.largest.userKey key : Nat) : Int)⟩ :
            Cursor),
         fs[fs.findIdx fun f => ! keyLt f.largest.userKey key]?) := by
      rw [hfiles]
      simp [Cursor.seekGE, Cursor.current]
    rw [heqn, hseek]
    dsimp only
    exact ffgeLoop_walkN (2 * fs.length + 8) fs
      (fs.findIdx fun f => ! keyLt f.largest.userKey key)
      { l with
          ffgeLog := l.ffgeLog ++ [seekGEFlagsNone]
          files := (⟨fs, ((fs.findIdx fun f =>
            ! keyLt f.largest.userKey key : Nat) : Int)⟩ : Cursor) }
      key 0 false rfl (findIdx_le_len _ fs) (by omega)

/-- C6: from a forward-walk state — the cursor of a manifest-legal level
(largest keys non-decreasing along the level, a file without range keys
has largest = largestPointKey, a file with point keys has its largest
point key at or below its largest key, every file holds point or range
keys) stands on the current file, and every earlier file's largest key
lies strictly below the sought key, as holds whenever that key is at or
after the current position — SeekGE with the TrySeekUsingNext hint
returns the same key-value outcome as SeekGE with no flags, across the
range-key-only skip, exclusive-sentinel skip and combined-iteration
trigger branches of findFileGE. -/
theorem seekGE_trySeekUsingNext_equiv (l : LevelIter) (key : Key)
    (fs : List FileMeta) (i : Nat)
    (hfiles : l.files = ⟨fs, (i : Int)⟩)
    (hitf : l.iterFile = fs[i]?)
    (hile : i ≤ fs.length)
    (ha : ∀ g ∈ fs, g.hasRangeKeys = false → g.largest = g.largestPointKey)
    (hb : ∀ g ∈ fs, g.hasPointKeys = true →
       keyLt g.largest.userKey g.largestPointKey.userKey = false)
    (hc : ∀ g ∈ fs, g.hasPointKeys = true ∨ g.hasRangeKeys = true)
    (hsorted : ∀ (j1 j2 : Nat) (g1 g2 : FileMeta), j1 ≤ j2 → fs[j1]? = some g1 →
       fs[j2]? = some g2 →
       keyLt g2.largest.userKey g1.largest.userKey = false)
    (hprev : ∀ j g, j < i → fs[j]? = some g → keyLt g.largest.userKey key = true) :
    (l.SeekGE key tsnFlags).map (fun r => r.2) =
      (l.SeekGE key seekGEFlagsNone).map (fun r => r.2) := by
  obtain ⟨ht, hn⟩ := ffge_tsn_equiv
    ({ l with err := none, exhaustedDir := 0 } : LevelIter) key fs i hfiles hitf hile
    ha hb hc hsorted hprev
  have e1 : l.SeekGE key tsnFlags =
      LevelIter.seekGEFinish
        (LevelIter.loadFile
          { ({ ({ l with err := none, exhaustedDir := 0 } : LevelIter) with
               files := ⟨fs, ((ffgeStopIdx key fs : Nat) : Int)⟩ } : LevelIter) with
             combined := (LevelIter.findFileGE
               ({ l with err := none, exhaustedDir := 0 } : LevelIter) key
               tsnFlags).1.combined,
             ffgeLog := ({ l with err := none, exhaustedDir := 0 } :
               LevelIter).ffgeLog ++ [tsnFlags] }
          (fs[ffgeStopIdx key fs]?) 1)
        key tsnFlags := by
    unfold LevelIter.SeekGE LevelIter.seekGEPosition
    rw [ht]
  have e2 : l.SeekGE key seekGEFlagsNone =
      LevelIter.seekGEFinish
        (LevelIter.loadFile
          { ({ ({ l with err := none, exhaustedDir := 0 } : LevelIter) with
               files := ⟨fs, ((ffgeStopIdx key fs : Nat) : Int)⟩ } : LevelIter) with
             combined := (LevelIter.findFileGE
               ({ l with err := none, exhaustedDir := 0 } : LevelIter) key
               seekGEFlagsNone).1.combined,
             ffgeLog := ({ l with err := none, exhaustedDir := 0 } :
               LevelIter).ffgeLog ++ [seekGEFlagsNone] }
          (fs[ffgeStopIdx key fs]?) 1)
        key seekGEFlagsNone := by
    unfold LevelIter.SeekGE LevelIter.seekGEPosition
    rw [hn]
  conv_lhs => rw [e1, loadFile_cg, seekGEFinish_cgv]
  conv_rhs => rw [e2, loadFile_cg, seekGEFinish_cgv]
  rfl

/-- Witness for the C6 theorem: in scenario S4, positioned at k2, seeking
k7 with the TrySeekUsingNext hint returns the same key-value outcome as
the unhinted seek. -/
theorem seekGE_trySeekUsingNext_equiv_witness :
    (s4State.SeekGE (kf 7) tsnFlags).map (fun r => r.2) =
      (s4State.SeekGE (kf 7) seekGEFlagsNone).map (fun r => r.2) := by
  refine seekGE_trySeekUsingNext_equiv s4State (kf 7) s4Files 1 rfl rfl (by decide)
    (by decide) (by decide) (by decide)
    (fun j1 j2 g1 g2 h12 h1 h2 =>
      chain_ge_all s4Files j1 j2 g1 g2
        (by simp only [s4Files, List.chain'_cons, List.chain'_singleton, and_true]
            decide) h12 h1 h2) ?_
  intro j g hj hg
  have hj0 : j = 0 := by omega
  subst hj0
  rw [show s4Files[0]? = some (mkPointFile 0 [kf 1]) from rfl] at hg
  injection hg with hg
  subst hg
  decide
